import Mathlib

/-!
Verification of the real-time physics core of the AI-SOUL installation
(gravity field / shell deformer / node swarm / particle systems).

JavaScript numbers are modelled by the real numbers `ℝ` (idealised,
overflow-free arithmetic); the one component whose specified behaviour is
about IEEE special values (the NaN scan of the shell solver) is modelled
separately over an explicit value type with `nan` and infinities.
Each definition is a direct functional translation of the corresponding
method in the repository, with source file and line references in the
doc strings.
-/

noncomputable section

/-- 3-component vector, mirroring `THREE.Vector3` as used by the physics
code (plain (x,y,z) arithmetic only). -/
structure Vec3 where
  x : ℝ
  y : ℝ
  z : ℝ

namespace Vec3

def add (a b : Vec3) : Vec3 := ⟨a.x + b.x, a.y + b.y, a.z + b.z⟩

def sub (a b : Vec3) : Vec3 := ⟨a.x - b.x, a.y - b.y, a.z - b.z⟩

def smul (a : Vec3) (k : ℝ) : Vec3 := ⟨a.x * k, a.y * k, a.z * k⟩

def dot (a b : Vec3) : ℝ := a.x * b.x + a.y * b.y + a.z * b.z

/-- `lengthSq()` of THREE.Vector3. -/
def normSq (a : Vec3) : ℝ := a.x * a.x + a.y * a.y + a.z * a.z

/-- `length()` of THREE.Vector3. -/
def norm (a : Vec3) : ℝ := Real.sqrt a.normSq

def zero : Vec3 := ⟨0, 0, 0⟩

instance : Inhabited Vec3 := ⟨zero⟩

/-- Euclidean distance between two points (`distanceTo`). -/
def dist (a b : Vec3) : ℝ := (a.sub b).norm

lemma normSq_nonneg (a : Vec3) : 0 ≤ a.normSq := by
  have hx : 0 ≤ a.x * a.x := mul_self_nonneg _
  have hy : 0 ≤ a.y * a.y := mul_self_nonneg _
  have hz : 0 ≤ a.z * a.z := mul_self_nonneg _
  unfold normSq; linarith

lemma norm_nonneg (a : Vec3) : 0 ≤ a.norm := Real.sqrt_nonneg _

lemma normSq_smul (a : Vec3) (k : ℝ) : (a.smul k).normSq = a.normSq * k ^ 2 := by
  unfold normSq smul; ring

lemma normSq_add (a b : Vec3) :
    (a.add b).normSq = a.normSq + 2 * a.dot b + b.normSq := by
  unfold normSq add dot; ring

lemma dot_smul_left (a b : Vec3) (k : ℝ) : (a.smul k).dot b = k * a.dot b := by
  unfold dot smul; ring

lemma dot_smul_right (a b : Vec3) (k : ℝ) : a.dot (b.smul k) = k * a.dot b := by
  unfold dot smul; ring

lemma norm_sq_eq (a : Vec3) : a.norm ^ 2 = a.normSq := by
  unfold norm; exact Real.sq_sqrt a.normSq_nonneg

lemma norm_zero : (zero : Vec3).norm = 0 := by
  simp [norm, normSq, zero]

end Vec3

/-- `Real.sqrt a ≤ b` from a bound on the square. -/
lemma sqrt_le_of_sq_le {a b : ℝ} (hb : 0 ≤ b) (h : a ≤ b ^ 2) : Real.sqrt a ≤ b := by
  calc Real.sqrt a ≤ Real.sqrt (b ^ 2) := Real.sqrt_le_sqrt h
    _ = b := Real.sqrt_sq hb

/-- Monotone lower bound on a square root. -/
lemma le_sqrt_of_sq_le {a b : ℝ} (ha : 0 ≤ a) (h : a ^ 2 ≤ b) : a ≤ Real.sqrt b := by
  calc a = Real.sqrt (a ^ 2) := (Real.sqrt_sq ha).symm
    _ ≤ Real.sqrt b := Real.sqrt_le_sqrt h

/-! ### Configuration constants (src/config.js) -/

namespace BLACK_HOLE

def mass : ℝ := 850
def spin : ℝ := 1.5
def drag : ℝ := 0.18
def maxAccel : ℝ := 100
def eps : ℝ := 2.5
def influenceRadius : ℝ := 85
def suctionSpeed : ℝ := 0.15
def tidalStrength : ℝ := 2.2
def tidalRadius : ℝ := 28
def horizonRadius : ℝ := 8
def absorbRadius : ℝ := 4
def absorbRate : ℝ := 0.45
def tunnelDepth : ℝ := 8

end BLACK_HOLE

namespace CFG

def radius : ℝ := 8
def spring : ℝ := 0.035
def pushRange : ℝ := 7.8
def gripStrength : ℝ := 0.95

end CFG

/-- Every double represented by a real number is finite, so the JavaScript
`isFinite` guards of the physics code are identically true in this model. -/
def jsIsFinite (_ : ℝ) : Bool := true

/-- `isNaN` on a real-valued (hence finite) double is identically false. -/
def jsIsNaN (_ : ℝ) : Bool := false

/-! ### GravityField: `Singularity.applyPull` (src/src/physics/Singularity.js)

`applyPull(object, dt)` reads the config fields through `||`-fallbacks; all
the fallbacks are dead because the `BLACK_HOLE` values are truthy, so the
constants above are the effective ones (`eps = cfg.eps || 1.0` is 2.5, etc.).
-/

namespace Singularity

structure Material where
  opacity : ℝ
  transparent : Bool

/-- The slice of a THREE scene object that `applyPull`/`reset` touch:
transform, `userData.vel` / `userData.absorbed` (absent until initialised,
hence `Option`), material and visibility. -/
structure Obj where
  position : Vec3
  scale : Vec3
  rotation : Vec3
  vel : Option Vec3
  absorbed : Option ℝ
  material : Option Material
  visible : Bool

/-- Softened squared distance, line 45: `r2 = |obj − bh|² + eps²`. -/
def softR2 (objPos bhPos : Vec3) : ℝ := (objPos.sub bhPos).normSq + BLACK_HOLE.eps * BLACK_HOLE.eps

/-- Softened distance, line 46: `r = sqrt(r2)`. -/
def softR (objPos bhPos : Vec3) : ℝ := Real.sqrt (softR2 objPos bhPos)

/-- Lines 54–94 of `applyPull`: the acceleration vector `aRad + aTan`
(radial inverse-square pull, clamped and eased by the pull intensity, plus
the tangential swirl around the z axis). -/
def rawAccel (objPos bhPos : Vec3) (pull : ℝ) : Vec3 :=
  let rVec := objPos.sub bhPos
  let r2 := rVec.normSq + BLACK_HOLE.eps * BLACK_HOLE.eps
  let r := Real.sqrt r2
  let invR := 1 / r
  let rHat := rVec.smul invR
  let base : ℝ := 0.08
  let p := base + (1 - base) * pull
  let easedPull := p * p
  let aMag0 : ℝ :=
    if r > BLACK_HOLE.influenceRadius then BLACK_HOLE.mass / (r2 * 4.0)
    else BLACK_HOLE.mass / r2
  let aMag1 : ℝ := if aMag0 > BLACK_HOLE.maxAccel then BLACK_HOLE.maxAccel else aMag0
  let aMag2 : ℝ := if jsIsFinite aMag1 then aMag1 else 0
  let aMag := aMag2 * easedPull
  let aRad := rHat.smul (-aMag)
  let tRaw : Vec3 := ⟨-rHat.y, rHat.x, 0⟩
  let tLen := tRaw.norm
  let tHat := if tLen > 1e-5 then tRaw.smul (1 / tLen) else tRaw
  let swirlMag := BLACK_HOLE.spin / (r + BLACK_HOLE.eps)
  let aTan := tHat.smul swirlMag
  aRad.add aTan

/-- The total acceleration the gravity field applies to a point: zero in
the beyond-influence branch (line 49 returns after a pure velocity decay),
otherwise `rawAccel`. -/
def pullAccel (objPos bhPos : Vec3) (pull : ℝ) : Vec3 :=
  if softR objPos bhPos > BLACK_HOLE.influenceRadius then Vec3.zero
  else rawAccel objPos bhPos pull

/-- Full state effect of `Singularity.applyPull(object, dt)`, lines 30–142.
`enabled` and `bhPos` are the attractor state; `blackHolePull` is
`STATE.blackHolePull`. -/
def applyPull (obj : Option Obj) (enabled : Bool) (bhPos : Vec3)
    (blackHolePull dt : ℝ) : Option Obj :=
  match obj with
  | none => none
  | some o =>
    if enabled = false ∨ blackHolePull < 0.01 then some o
    else
      let vel0 := o.vel.getD Vec3.zero
      let absorbed0 := o.absorbed.getD 0
      let rVec := o.position.sub bhPos
      let r2 := rVec.normSq + BLACK_HOLE.eps * BLACK_HOLE.eps
      let r := Real.sqrt r2
      if r > BLACK_HOLE.influenceRadius then
        some { o with vel := some (vel0.smul 0.98), absorbed := some absorbed0 }
      else
        let accel := rawAccel o.position bhPos blackHolePull
        let vel1 := vel0.add (accel.smul dt)
        let vel2 := vel1.smul (1 - BLACK_HOLE.drag * dt)
        let pos1 := o.position.add (vel2.smul dt)
        let scale1 : Vec3 :=
          if r < BLACK_HOLE.tidalRadius then
            let k := 1 - r / BLACK_HOLE.tidalRadius
            ⟨1 + k * 0.9, 1 - k * 0.45, 1⟩
          else ⟨1, 1, 1⟩
        if r < BLACK_HOLE.horizonRadius then
          let absorbed1 := min 1 (absorbed0 + BLACK_HOLE.absorbRate * dt)
          let a01 := absorbed1
          let scale2 := scale1.smul (1 - 0.85 * a01)
          let mat1 := o.material.map (fun _ => (⟨max 0 (1 - a01), true⟩ : Material))
          let pos2 : Vec3 := ⟨pos1.x, pos1.y, pos1.z - BLACK_HOLE.tunnelDepth * dt * a01⟩
          let vis := if r < BLACK_HOLE.absorbRadius ∨ a01 ≥ 1 then false else o.visible
          some { position := pos2
                 scale := scale2
                 rotation := o.rotation
                 vel := some vel2
                 absorbed := some absorbed1
                 material := mat1
                 visible := vis }
        else
          some { o with
                 position := pos1
                 scale := scale1
                 vel := some vel2
                 absorbed := some absorbed0 }

end Singularity

/-! ### Component simp lemmas for Vec3 -/

namespace Vec3

@[simp] lemma add_x (a b : Vec3) : (a.add b).x = a.x + b.x := rfl
@[simp] lemma add_y (a b : Vec3) : (a.add b).y = a.y + b.y := rfl
@[simp] lemma add_z (a b : Vec3) : (a.add b).z = a.z + b.z := rfl
@[simp] lemma sub_x (a b : Vec3) : (a.sub b).x = a.x - b.x := rfl
@[simp] lemma sub_y (a b : Vec3) : (a.sub b).y = a.y - b.y := rfl
@[simp] lemma sub_z (a b : Vec3) : (a.sub b).z = a.z - b.z := rfl
@[simp] lemma smul_x (a : Vec3) (k : ℝ) : (a.smul k).x = a.x * k := rfl
@[simp] lemma smul_y (a : Vec3) (k : ℝ) : (a.smul k).y = a.y * k := rfl
@[simp] lemma smul_z (a : Vec3) (k : ℝ) : (a.smul k).z = a.z * k := rfl
@[simp] lemma zero_x : (zero : Vec3).x = 0 := rfl
@[simp] lemma zero_y : (zero : Vec3).y = 0 := rfl
@[simp] lemma zero_z : (zero : Vec3).z = 0 := rfl

end Vec3

/-- The truncation `if a > b then b else a` of the source is a `min`. -/
lemma clamp_eq_min (a b : ℝ) : (if a > b then b else a) = min a b := by
  rcases le_or_lt a b with h | h
  · rw [if_neg (not_lt.mpr h), min_eq_left h]
  · rw [if_pos h, min_eq_right h.le]

/-- Core radial estimate: with mass 850 and softening 2.5 (so the softened
squared distance is `u ≥ 6.25`), the clamped inverse-square magnitude times
the squared norm of the (softened) unit radial vector never exceeds 6875,
comfortably below `maxAccel² = 10000`. -/
lemma radial_sq_bound (u : ℝ) (hu : (6.25:ℝ) ≤ u) :
    (min (850 / u) 100) ^ 2 * ((u - 6.25) / u) ≤ 6875 := by
  have hu0 : (0:ℝ) < u := by linarith
  have hfrac0 : 0 ≤ (u - 6.25) / u := div_nonneg (by linarith) hu0.le
  have hmin0 : 0 ≤ min (850 / u) 100 :=
    le_min (div_nonneg (by norm_num) hu0.le) (by norm_num)
  rcases le_or_lt u 8.5 with h1 | h1
  · have hminle : min (850 / u) 100 ≤ 100 := min_le_right _ _
    have hfle : (u - 6.25) / u ≤ 2.25 / 8.5 := by
      rw [div_le_div_iff hu0 (by norm_num)]
      linarith
    calc (min (850 / u) 100) ^ 2 * ((u - 6.25) / u)
        ≤ 100 ^ 2 * (2.25 / 8.5) :=
          mul_le_mul (by nlinarith) hfle hfrac0 (by norm_num)
      _ ≤ 6875 := by norm_num
  · have hminle : min (850 / u) 100 ≤ 850 / u := min_le_left _ _
    rcases le_or_lt u 20 with h2 | h2
    · have hd : 850 / u ≤ 100 := by
        rw [div_le_iff hu0]; linarith
      have hfle : (u - 6.25) / u ≤ 0.6875 := by
        rw [div_le_iff hu0]; linarith
      calc (min (850 / u) 100) ^ 2 * ((u - 6.25) / u)
          ≤ 100 ^ 2 * 0.6875 :=
            mul_le_mul (by nlinarith) hfle hfrac0 (by norm_num)
        _ ≤ 6875 := by norm_num
    · have hd : 850 / u ≤ 42.5 := by
        rw [div_le_iff hu0]; linarith
      have hfle : (u - 6.25) / u ≤ 1 := by
        rw [div_le_one hu0]; linarith
      calc (min (850 / u) 100) ^ 2 * ((u - 6.25) / u)
          ≤ 42.5 ^ 2 * 1 :=
            mul_le_mul (by nlinarith) hfle hfrac0 (by norm_num)
        _ ≤ 6875 := by norm_num

/-- Norm-square bound for an orthogonal radial + tangential sum. -/
lemma accel_pieces_bound (w t : Vec3) (aM sw : ℝ)
    (hort : w.dot t = 0)
    (hw : w.normSq * aM ^ 2 ≤ 6875)
    (ht : t.normSq ≤ 1)
    (hsw : sw ^ 2 ≤ 0.09) :
    ((w.smul (-aM)).add (t.smul sw)).normSq ≤ 10000 := by
  have h1 : ((w.smul (-aM)).add (t.smul sw)).normSq
      = w.normSq * aM ^ 2 + 2 * (-aM * sw * w.dot t) + t.normSq * sw ^ 2 := by
    rw [Vec3.normSq_add, Vec3.normSq_smul, Vec3.normSq_smul,
        Vec3.dot_smul_left, Vec3.dot_smul_right]
    ring
  rw [h1, hort]
  have ht0 : 0 ≤ t.normSq := t.normSq_nonneg
  have hsw0 : 0 ≤ sw ^ 2 := sq_nonneg _
  have hts : t.normSq * sw ^ 2 ≤ 1 * 0.09 := mul_le_mul ht hsw hsw0 (by norm_num)
  nlinarith

/-- A vector scaled by the reciprocal of its (positive) norm has norm-square 1. -/
lemma normSq_normalize_le_one (w : Vec3) (h : 0 < w.norm) :
    (w.smul (1 / w.norm)).normSq ≤ 1 := by
  have hn2 : w.norm ^ 2 ≠ 0 := by positivity
  rw [Vec3.normSq_smul, ← Vec3.norm_sq_eq, div_pow, one_pow, mul_one_div,
    div_self hn2]

/-- The `rawAccel` vector of the gravity field has squared norm at most
`maxAccel² = 10000`, for any point and any pull intensity in `[0,1]`. -/
lemma rawAccel_normSq_le (objPos bhPos : Vec3) {pull : ℝ}
    (hp0 : 0 ≤ pull) (hp1 : pull ≤ 1) :
    (Singularity.rawAccel objPos bhPos pull).normSq ≤ 10000 := by
  have heps : BLACK_HOLE.eps * BLACK_HOLE.eps = (6.25:ℝ) := by
    norm_num [BLACK_HOLE.eps]
  simp only [Singularity.rawAccel, jsIsFinite, heps, eq_self_iff_true, if_true]
  set v := objPos.sub bhPos with hv
  have hd20 : 0 ≤ v.normSq := v.normSq_nonneg
  set u : ℝ := v.normSq + 6.25 with hu
  have hupos : (0:ℝ) < u := by rw [hu]; linarith
  have hu625 : (6.25:ℝ) ≤ u := by rw [hu]; linarith
  set r : ℝ := Real.sqrt u with hr
  have hrsq : r ^ 2 = u := Real.sq_sqrt hupos.le
  have hr25 : (2.5:ℝ) ≤ r := le_sqrt_of_sq_le (by norm_num) (by nlinarith)
  have hrpos : (0:ℝ) < r := lt_of_lt_of_le (by norm_num) hr25
  apply accel_pieces_bound
  · -- orthogonality of swirl direction and radial direction
    split_ifs with htl
    · simp only [Vec3.dot, Vec3.smul]
      ring
    · simp only [Vec3.dot, Vec3.smul]
      ring
  · -- clamped radial magnitude squared, times radial norm-square, stays ≤ 6875
    have hrhat : (v.smul (1 / r)).normSq = (u - 6.25) / u := by
      rw [Vec3.normSq_smul, div_pow, one_pow, hrsq, hu, mul_one_div]
      norm_num
    rw [hrhat]
    have hb := radial_sq_bound u hu625
    have hppos : (0:ℝ) ≤ 0.08 + (1 - 0.08) * pull := by linarith
    have hple : 0.08 + (1 - 0.08) * pull ≤ 1 := by linarith
    set p : ℝ := 0.08 + (1 - 0.08) * pull with hp
    have hpp0 : 0 ≤ p * p := mul_nonneg hppos hppos
    have hpp1 : p * p ≤ 1 := by nlinarith
    set aMag0 : ℝ :=
      if r > BLACK_HOLE.influenceRadius then BLACK_HOLE.mass / (u * 4.0)
      else BLACK_HOLE.mass / u with ha0
    have ha00 : 0 ≤ aMag0 := by
      rw [ha0]; split_ifs
      · exact div_nonneg (by norm_num [BLACK_HOLE.mass]) (by linarith)
      · exact div_nonneg (by norm_num [BLACK_HOLE.mass]) hupos.le
    have ha0le : aMag0 ≤ 850 / u := by
      rw [ha0]; split_ifs
      · simp only [BLACK_HOLE.mass]
        rw [div_le_div_iff (by positivity) hupos]
        nlinarith
      · simp only [BLACK_HOLE.mass]
        exact le_rfl
    set aMag1 : ℝ := if aMag0 > BLACK_HOLE.maxAccel then BLACK_HOLE.maxAccel else aMag0
      with ha1
    have ha1min : aMag1 = min aMag0 100 := by
      rw [ha1, clamp_eq_min, BLACK_HOLE.maxAccel]
    have ha1le : aMag1 ≤ min (850 / u) 100 := by
      rw [ha1min]
      exact min_le_min ha0le le_rfl
    have ha10 : 0 ≤ aMag1 := by
      rw [ha1min]
      exact le_min ha00 (by norm_num)
    have hfr0 : 0 ≤ (u - 6.25) / u := div_nonneg (by linarith) hupos.le
    have hmin0 : 0 ≤ min (850 / u) 100 :=
      le_min (div_nonneg (by norm_num) hupos.le) (by norm_num)
    have hprod : aMag1 * (p * p) ≤ min (850 / u) 100 :=
      le_trans (mul_le_of_le_one_right ha10 hpp1) ha1le
    have hprod0 : 0 ≤ aMag1 * (p * p) := mul_nonneg ha10 hpp0
    have hsq : (aMag1 * (p * p)) ^ 2 ≤ (min (850 / u) 100) ^ 2 :=
      pow_le_pow_left hprod0 hprod 2
    calc (u - 6.25) / u * (aMag1 * (p * p)) ^ 2
        ≤ (u - 6.25) / u * (min (850 / u) 100) ^ 2 :=
          mul_le_mul_of_nonneg_left hsq hfr0
      _ = (min (850 / u) 100) ^ 2 * ((u - 6.25) / u) := by ring
      _ ≤ 6875 := hb
  · -- tangential direction (normalised or raw) has norm-square at most 1
    split_ifs with htl
    · exact normSq_normalize_le_one _ (lt_trans (by norm_num) htl)
    · push_neg at htl
      rw [← Vec3.norm_sq_eq]
      nlinarith [Vec3.norm_nonneg (⟨-(v.smul (1 / r)).y, (v.smul (1 / r)).x, 0⟩ : Vec3)]
  · -- swirl magnitude squared is at most 0.09
    have he : BLACK_HOLE.eps = (2.5:ℝ) := by norm_num [BLACK_HOLE.eps]
    have hs : BLACK_HOLE.spin = (1.5:ℝ) := by norm_num [BLACK_HOLE.spin]
    rw [he, hs]
    have hden : (0:ℝ) < r + 2.5 := by linarith
    have h03 : 1.5 / (r + 2.5) ≤ 0.3 := by
      rw [div_le_iff hden]; linarith
    have h00 : 0 ≤ 1.5 / (r + 2.5) := by positivity
    nlinarith

/-- C1: for every input point and every pull intensity in [0,1] (velocity
and dt do not enter the force computation), the magnitude of the total
acceleration produced by the gravity field — radial inverse-square term
plus tangential swirl term combined — is at most the configured `maxAccel`
constant. -/
theorem C1_gravity_total_accel_le_maxAccel (objPos bhPos : Vec3) (pull : ℝ)
    (hp0 : 0 ≤ pull) (hp1 : pull ≤ 1) :
    (Singularity.pullAccel objPos bhPos pull).norm ≤ BLACK_HOLE.maxAccel := by
  unfold Singularity.pullAccel
  split_ifs
  · rw [Vec3.norm_zero]
    norm_num [BLACK_HOLE.maxAccel]
  · have h := rawAccel_normSq_le objPos bhPos hp0 hp1
    rw [BLACK_HOLE.maxAccel]
    unfold Vec3.norm
    exact sqrt_le_of_sq_le (by norm_num) (by nlinarith)

theorem C1_gravity_total_accel_le_maxAccel_witness :
    (0:ℝ) ≤ 1 ∧ (1:ℝ) ≤ 1 ∧
      (Singularity.pullAccel ⟨3, 0, 0⟩ ⟨0, 0, 0⟩ 1).norm ≤ BLACK_HOLE.maxAccel :=
  ⟨by norm_num, by norm_num,
    C1_gravity_total_accel_le_maxAccel ⟨3, 0, 0⟩ ⟨0, 0, 0⟩ 1 (by norm_num) (by norm_num)⟩

/-- C5: for every input point (including points coinciding with the
attractor position), the softened distance used for division is at least
the softening epsilon — in particular never zero — and the acceleration
magnitude is clamped: the force computation produces only (finite)
well-defined outputs bounded by `maxAccel`. -/
theorem C5_softened_distance_positive_and_accel_clamped (objPos bhPos : Vec3) :
    BLACK_HOLE.eps ≤ Singularity.softR objPos bhPos ∧
      0 < Singularity.softR objPos bhPos ∧
      ∀ pull : ℝ, 0 ≤ pull → pull ≤ 1 →
        (Singularity.pullAccel objPos bhPos pull).norm ≤ BLACK_HOLE.maxAccel := by
  have h0 := Vec3.normSq_nonneg (objPos.sub bhPos)
  refine ⟨?_, ?_, ?_⟩
  · unfold Singularity.softR Singularity.softR2
    apply le_sqrt_of_sq_le (by norm_num [BLACK_HOLE.eps])
    simp only [BLACK_HOLE.eps]
    nlinarith
  · unfold Singularity.softR Singularity.softR2
    apply Real.sqrt_pos.mpr
    simp only [BLACK_HOLE.eps]
    nlinarith
  · intro pull hp0 hp1
    unfold Singularity.pullAccel
    split_ifs
    · rw [Vec3.norm_zero]
      norm_num [BLACK_HOLE.maxAccel]
    · have h := rawAccel_normSq_le objPos bhPos hp0 hp1
      rw [BLACK_HOLE.maxAccel]
      unfold Vec3.norm
      exact sqrt_le_of_sq_le (by norm_num) (by nlinarith)

theorem C5_softened_distance_positive_and_accel_clamped_witness :
    BLACK_HOLE.eps ≤ Singularity.softR ⟨0, 0, 0⟩ ⟨0, 0, 0⟩ ∧
      0 < Singularity.softR ⟨0, 0, 0⟩ ⟨0, 0, 0⟩ ∧
      (Singularity.pullAccel ⟨0, 0, 0⟩ ⟨0, 0, 0⟩ 1).norm ≤ BLACK_HOLE.maxAccel :=
  ⟨(C5_softened_distance_positive_and_accel_clamped ⟨0, 0, 0⟩ ⟨0, 0, 0⟩).1,
    (C5_softened_distance_positive_and_accel_clamped ⟨0, 0, 0⟩ ⟨0, 0, 0⟩).2.1,
    (C5_softened_distance_positive_and_accel_clamped ⟨0, 0, 0⟩ ⟨0, 0, 0⟩).2.2 1
      (by norm_num) (by norm_num)⟩

/-- C10: when the gravity field is disabled, or the pull intensity is below
0.01, or the target object is null, `applyPull` leaves the object's whole
state (position, velocity, scale, absorption, material, visibility)
completely unchanged. -/
theorem C10_applyPull_noop_outside_precondition (obj : Option Singularity.Obj)
    (enabled : Bool) (bhPos : Vec3) (pull dt : ℝ)
    (h : obj = none ∨ enabled = false ∨ pull < 0.01) :
    Singularity.applyPull obj enabled bhPos pull dt = obj := by
  cases obj with
  | none => rfl
  | some o =>
    rcases h with h | h
    · exact absurd h (by simp)
    · show Singularity.applyPull (some o) enabled bhPos pull dt = some o
      simp only [Singularity.applyPull]
      rw [if_pos h]

theorem C10_applyPull_noop_outside_precondition_witness :
    ((none : Option Singularity.Obj) = none ∨ true = false ∨ (1:ℝ) < 0.01) ∧
      Singularity.applyPull none true ⟨0, 0, 0⟩ 1 1 = none :=
  ⟨Or.inl rfl,
    C10_applyPull_noop_outside_precondition none true ⟨0, 0, 0⟩ 1 1 (Or.inl rfl)⟩

/-! ### AccretionDisk (src/unnamed/part_003, class `AccretionDisk`)

Particle buffers (`Float32Array`s of fixed length `count`) are modelled as
total functions `ℕ → ℝ` together with the explicit `count`; `Math.random()`
is modelled by an injected stream `rnd : ℕ → ℝ` consumed in call order
through the counter `rndCtr`.
-/

/-- `BLACK_HOLE.accretion` of src/config.js (the fields the simulation
reads; `particles` and `absorbFade` are not used by `update`). -/
structure DiskCfg where
  innerR : ℝ
  outerR : ℝ
  thickness : ℝ
  spiralIn : ℝ
  orbitSpeed : ℝ
  turbulence : ℝ
  heatGain : ℝ
  size : ℝ

def ACCRETION : DiskCfg :=
  { innerR := 8, outerR := 34, thickness := 2.2, spiralIn := 0.55,
    orbitSpeed := 2.4, turbulence := 0.35, heatGain := 1.1, size := 0.9 }

structure DiskState where
  count : ℕ
  r : ℕ → ℝ
  theta : ℕ → ℝ
  zBase : ℕ → ℝ
  heat : ℕ → ℝ
  speedOffset : ℕ → ℝ
  positions : ℕ → Vec3
  colors : ℕ → Vec3
  opacity : ℝ
  rndCtr : ℕ

/-- One iteration of the `update` particle loop (part_003 lines 198–254),
including the in-place `resetParticle(i, false)` resample (lines 153–164)
when the spiralled-in radius falls below `innerR`. -/
def diskStep (cfg : DiskCfg) (rnd : ℕ → ℝ) (dt time : ℝ) (center : Vec3)
    (st : DiskState) (i : ℕ) : DiskState :=
  let r0 := st.r i
  let theta0 := st.theta i
  let speed := cfg.orbitSpeed * st.speedOffset i * dt * (30 / (r0 + 1.0))
  let theta1 := theta0 + speed
  let r1 := r0 - dt * cfg.spiralIn * (20 / (r0 + 1.0))
  let st2 : DiskState :=
    if r1 < cfg.innerR then
      let t := rnd st.rndCtr
      let rNorm := 0.9 + 0.1 * t
      { st with
        r := Function.update st.r i (cfg.innerR + (cfg.outerR - cfg.innerR) * rNorm)
        theta := Function.update st.theta i (rnd (st.rndCtr + 1) * (2 * Real.pi))
        zBase := Function.update st.zBase i ((rnd (st.rndCtr + 2) - 0.5) * cfg.thickness)
        heat := Function.update st.heat i 0
        speedOffset := Function.update st.speedOffset i (0.8 + rnd (st.rndCtr + 3) * 0.4)
        rndCtr := st.rndCtr + 4 }
    else st
  let r2 := if r1 < cfg.innerR then st2.r i else r1
  let theta2 := if r1 < cfg.innerR then st2.theta i else theta1
  let st3 := { st2 with
    r := Function.update st2.r i r2
    theta := Function.update st2.theta i theta2 }
  let wobble := Real.sin (time * 0.7 + theta2 * 2.0) * cfg.turbulence * dt * 60
  let z := st3.zBase i + wobble
  let px := Real.cos theta2 * r2
  let py := Real.sin theta2 * r2
  let normalizedDist := (r2 - cfg.innerR) / (cfg.outerR - cfg.innerR)
  let heat1 := Real.rpow (1.0 - normalizedDist) cfg.heatGain
  let rCol := 0.0 + heat1 * 1.0
  let gCol := 0.6 + heat1 * 0.35
  let bCol := 1.0 - heat1 * 0.2
  let intensity := 0.5 + heat1 * 1.5
  { st3 with
    positions := Function.update st3.positions i
      ⟨center.x + px, center.y + py, center.z + z⟩
    colors := Function.update st3.colors i
      ⟨min 1 (rCol * intensity), min 1 (gCol * intensity), min 1 (bCol * intensity)⟩ }

/-- `AccretionDisk.update(dt, time, pullFactor)` (part_003 lines 181–258). -/
def diskUpdate (cfg : DiskCfg) (rnd : ℕ → ℝ) (dt time pullFactor : ℝ)
    (center : Vec3) (st : DiskState) : DiskState :=
  let st1 := { st with opacity := 0.18 + 0.35 * min 1 pullFactor }
  (List.range st.count).foldl (diskStep cfg rnd dt time center) st1

lemma diskStep_r_other (cfg : DiskCfg) (rnd : ℕ → ℝ) (dt time : ℝ)
    (center : Vec3) (st : DiskState) (i j : ℕ) (hij : j ≠ i) :
    (diskStep cfg rnd dt time center st i).r j = st.r j := by
  simp only [diskStep]
  split_ifs <;> simp [Function.update_noteq hij]

lemma diskStep_count (cfg : DiskCfg) (rnd : ℕ → ℝ) (dt time : ℝ)
    (center : Vec3) (st : DiskState) (i : ℕ) :
    (diskStep cfg rnd dt time center st i).count = st.count := by
  simp only [diskStep]
  split_ifs <;> rfl

lemma diskStep_r_self (cfg : DiskCfg) (rnd : ℕ → ℝ) (dt time : ℝ)
    (center : Vec3) (st : DiskState) (i : ℕ) :
    (diskStep cfg rnd dt time center st i).r i =
      if st.r i - dt * cfg.spiralIn * (20 / (st.r i + 1.0)) < cfg.innerR
      then cfg.innerR + (cfg.outerR - cfg.innerR) * (0.9 + 0.1 * rnd st.rndCtr)
      else st.r i - dt * cfg.spiralIn * (20 / (st.r i + 1.0)) := by
  simp only [diskStep]
  split_ifs with h <;> simp [Function.update_same]

/-- The particle loop of `AccretionDisk.update`, as a function of the number
of particles processed. -/
def diskLoop (rnd : ℕ → ℝ) (dt time : ℝ) (center : Vec3) (k : ℕ)
    (st : DiskState) : DiskState :=
  (List.range k).foldl (diskStep ACCRETION rnd dt time center) st

lemma diskLoop_succ (rnd : ℕ → ℝ) (dt time : ℝ) (center : Vec3) (k : ℕ)
    (st : DiskState) :
    diskLoop rnd dt time center (k + 1) st
      = diskStep ACCRETION rnd dt time center (diskLoop rnd dt time center k st) k := by
  unfold diskLoop
  rw [List.range_succ, List.foldl_append, List.foldl_cons, List.foldl_nil]

lemma diskLoop_r_frozen (rnd : ℕ → ℝ) (dt time : ℝ) (center : Vec3) :
    ∀ (k : ℕ) (st : DiskState) (j : ℕ), k ≤ j →
      (diskLoop rnd dt time center k st).r j = st.r j := by
  intro k
  induction k with
  | zero => intro st j _; rfl
  | succ k ih =>
    intro st j hj
    rw [diskLoop_succ,
      diskStep_r_other ACCRETION rnd dt time center _ k j (by omega)]
    exact ih st j (by omega)

lemma diskLoop_r_inv (rnd : ℕ → ℝ) (dt time : ℝ) (center : Vec3)
    (hdt : 0 ≤ dt) (hrnd : ∀ n, 0 ≤ rnd n ∧ rnd n < 1) :
    ∀ (k : ℕ) (st : DiskState) (i : ℕ), i < k → 8 ≤ st.r i → st.r i ≤ 34 →
      (8 ≤ (diskLoop rnd dt time center k st).r i ∧
        (diskLoop rnd dt time center k st).r i ≤ 34) ∧
      (st.r i - dt * 0.55 * (20 / (st.r i + 1.0)) < 8 →
        31.4 ≤ (diskLoop rnd dt time center k st).r i) ∧
      (¬ st.r i - dt * 0.55 * (20 / (st.r i + 1.0)) < 8 →
        (diskLoop rnd dt time center k st).r i
          = st.r i - dt * 0.55 * (20 / (st.r i + 1.0))) := by
  intro k
  induction k with
  | zero => intro st i h; exact absurd h (Nat.not_lt_zero i)
  | succ k ih =>
    intro st i hik h8 h34
    rw [diskLoop_succ]
    rcases Nat.lt_or_ge i k with hik' | hik'
    · rw [diskStep_r_other ACCRETION rnd dt time center _ k i (by omega)]
      exact ih st i hik' h8 h34
    · have hik2 : i = k := by omega
      subst hik2
      have hfroz := diskLoop_r_frozen rnd dt time center i st i (le_refl i)
      rw [diskStep_r_self, hfroz]
      have hsp : ACCRETION.spiralIn = (0.55:ℝ) := rfl
      have hin : ACCRETION.innerR = (8:ℝ) := rfl
      have hout : ACCRETION.outerR = (34:ℝ) := rfl
      rw [hsp, hin, hout]
      have hden : (0:ℝ) < st.r i + 1.0 := by linarith
      have hdec : 0 ≤ dt * 0.55 * (20 / (st.r i + 1.0)) := by positivity
      obtain ⟨ht0, ht1⟩ := hrnd (diskLoop rnd dt time center i st).rndCtr
      split_ifs with hcond
      · exact ⟨⟨by nlinarith, by nlinarith⟩, fun _ => by nlinarith,
          fun hnc => absurd hcond hnc⟩
      · exact ⟨⟨by linarith [not_lt.mp hcond], by linarith⟩,
          fun hc => absurd hc hcond, fun _ => rfl⟩

/-- C7: provided every stored radius starts inside `[innerR, outerR]`, the
random draws lie in `[0,1)` and `dt ≥ 0`, then after `AccretionDisk.update`
every stored radius is again inside `[innerR, outerR]`; moreover, exactly
when the spiral-in decrement would take the stored radius below `innerR`,
the particle is resampled into the outer band
`[innerR + 0.9·(outerR−innerR), outerR]`, and otherwise the stored radius
equals exactly the spiralled-in value. -/
theorem C7_disk_radius_bounds_and_resample
    (rnd : ℕ → ℝ) (dt time pullFactor : ℝ) (center : Vec3) (st : DiskState)
    (hdt : 0 ≤ dt) (hrnd : ∀ n, 0 ≤ rnd n ∧ rnd n < 1)
    (hr : ∀ i, i < st.count → ACCRETION.innerR ≤ st.r i ∧ st.r i ≤ ACCRETION.outerR) :
    ∀ i, i < st.count →
      (ACCRETION.innerR ≤ (diskUpdate ACCRETION rnd dt time pullFactor center st).r i ∧
        (diskUpdate ACCRETION rnd dt time pullFactor center st).r i ≤ ACCRETION.outerR) ∧
      (st.r i - dt * ACCRETION.spiralIn * (20 / (st.r i + 1.0)) < ACCRETION.innerR →
        ACCRETION.innerR + 0.9 * (ACCRETION.outerR - ACCRETION.innerR) ≤
          (diskUpdate ACCRETION rnd dt time pullFactor center st).r i) ∧
      (¬ st.r i - dt * ACCRETION.spiralIn * (20 / (st.r i + 1.0)) < ACCRETION.innerR →
        (diskUpdate ACCRETION rnd dt time pullFactor center st).r i
          = st.r i - dt * ACCRETION.spiralIn * (20 / (st.r i + 1.0))) := by
  intro i hi
  have hupd : diskUpdate ACCRETION rnd dt time pullFactor center st
      = diskLoop rnd dt time center st.count
          { st with opacity := 0.18 + 0.35 * min 1 pullFactor } := rfl
  have hsp : ACCRETION.spiralIn = (0.55:ℝ) := rfl
  have hin : ACCRETION.innerR = (8:ℝ) := rfl
  have hout : ACCRETION.outerR = (34:ℝ) := rfl
  obtain ⟨h8, h34⟩ := hr i hi
  rw [hin] at h8
  rw [hout] at h34
  have key := diskLoop_r_inv rnd dt time center hdt hrnd st.count
    { st with opacity := 0.18 + 0.35 * min 1 pullFactor } i hi h8 h34
  rw [hupd, hsp, hin, hout]
  refine ⟨⟨key.1.1, key.1.2⟩, fun hc => ?_, fun hc => ?_⟩
  · have := key.2.1 hc
    nlinarith
  · exact key.2.2 hc

/-- A concrete one-particle disk state used to instantiate C7. -/
def diskWitnessState : DiskState :=
  { count := 1, r := fun _ => 8.5, theta := fun _ => 0, zBase := fun _ => 0,
    heat := fun _ => 0, speedOffset := fun _ => 1,
    positions := fun _ => Vec3.zero, colors := fun _ => Vec3.zero,
    opacity := 0, rndCtr := 0 }

theorem C7_disk_radius_bounds_and_resample_witness :
    (ACCRETION.innerR ≤
        (diskUpdate ACCRETION (fun _ => 0) 0.016 0 0 Vec3.zero diskWitnessState).r 0 ∧
      (diskUpdate ACCRETION (fun _ => 0) 0.016 0 0 Vec3.zero diskWitnessState).r 0
        ≤ ACCRETION.outerR) ∧
    (diskWitnessState.r 0 - 0.016 * ACCRETION.spiralIn *
        (20 / (diskWitnessState.r 0 + 1.0)) < ACCRETION.innerR →
      ACCRETION.innerR + 0.9 * (ACCRETION.outerR - ACCRETION.innerR) ≤
        (diskUpdate ACCRETION (fun _ => 0) 0.016 0 0 Vec3.zero diskWitnessState).r 0) ∧
    (¬ diskWitnessState.r 0 - 0.016 * ACCRETION.spiralIn *
        (20 / (diskWitnessState.r 0 + 1.0)) < ACCRETION.innerR →
      (diskUpdate ACCRETION (fun _ => 0) 0.016 0 0 Vec3.zero diskWitnessState).r 0
        = diskWitnessState.r 0 - 0.016 * ACCRETION.spiralIn *
            (20 / (diskWitnessState.r 0 + 1.0))) :=
  C7_disk_radius_bounds_and_resample (fun _ => 0) 0.016 0 0 Vec3.zero
    diskWitnessState (by norm_num) (fun _ => ⟨le_refl 0, by norm_num⟩)
    (fun i _ => by norm_num [diskWitnessState, ACCRETION]) 0 (by norm_num [diskWitnessState])

/-! ### NodeSwarm: `NeuralNet` (src/src/visuals/NeuralNet.js)

The per-node state and the per-node body of `update(stressLevel,
sphereScale, spherePos, blackHolePos)` (lines 96–212). THREE's
`normalize()` divides by `length() || 1`, and `reflect(n)` is
`v − n·(2·v⋅n)`. The `setHSL` colour write is omitted (purely cosmetic,
reads no physics state that is not already modelled). `Math.random()`
jitter draws are injected as a stream. -/

/-- THREE.Vector3.normalize: `divideScalar(length() || 1)`. -/
def vnormalize (v : Vec3) : Vec3 := v.smul (1 / (if v.norm = 0 then 1 else v.norm))

/-- THREE.Vector3.reflect. -/
def vreflect (v n : Vec3) : Vec3 := v.sub (n.smul (2 * v.dot n))

structure Node where
  basePos : Vec3
  origPos : Vec3
  unitDir : Vec3
  initR : ℝ
  pulsePhase : ℝ
  driftVel : Vec3
  activity : ℝ
  absorbed : ℝ
  scale : ℝ
  opacity : ℝ
  position : Vec3
  deriving Inhabited

/-- Per-tick inputs to `NeuralNet.update` (arguments plus the globals it
reads: `STATE.mode`, `STATE.blackHolePull`, and the live
`sphere.userData.currentRadius`, absent on the first frame). -/
structure NodeCtx where
  stressLevel : ℝ
  sphereScale : ℝ
  spherePos : Vec3
  blackHolePos : Option Vec3
  modeSingularity : Bool
  blackHolePull : ℝ
  currentRadius : Option ℝ
  t : ℝ

/-- `(currentR || CFG.radius) * 0.9` of NeuralNet.js lines 160–161
(`undefined` and `0` both fall back to the rest radius). -/
def dynamicRadius (cur : Option ℝ) : ℝ :=
  match cur with
  | none => CFG.radius * 0.9
  | some c => (if c = 0 then CFG.radius else c) * 0.9

/-- The containment clamp of `NeuralNet.update`, lines 154–188: hard clamp
to the live shell radius, then the minimum-radius clamp — both tested
against the distance computed *before* the first clamp, exactly as in the
source. -/
def containBase (effMax minR : ℝ) (base3 : Vec3) : Vec3 :=
  let distFromCenter := base3.norm
  let b4 := if distFromCenter > effMax then (vnormalize base3).smul effMax else base3
  if distFromCenter < minR then (vnormalize b4).smul minR else b4

/-- One iteration of the `neurons.forEach` body of `NeuralNet.update`
(lines 96–211); `i` is the loop index, `j1 j2 j3` the three jitter draws
used when the containment clamp fires. -/
def nodeStep (ctx : NodeCtx) (j1 j2 j3 : ℝ) (i : ℕ) (nd : Node) : Node :=
  let bhActive : Prop := ctx.modeSingularity = true ∧ 0.01 < ctx.blackHolePull
  let pulse := Real.sin (ctx.t * 2 + nd.pulsePhase) * 0.5 + 0.5
  let baseActivity := if bhActive then ctx.stressLevel * 0.3 else ctx.stressLevel * 1.0
  let activity := baseActivity + pulse * 0.2
  let absorb := nd.absorbed
  let base1 := nd.basePos.add nd.driftVel
  let bhBlock : Vec3 × ℝ :=
    if bhActive then
      match ctx.blackHolePos with
      | none => (base1, nd.absorbed)
      | some bhp =>
        let world := (base1.smul ctx.sphereScale).add ctx.spherePos
        let dirRaw := bhp.sub world
        let distToBH := dirRaw.norm
        let inner : Vec3 × ℝ :=
          if distToBH < BLACK_HOLE.influenceRadius then
            let dir := vnormalize dirRaw
            let pullStrength :=
              BLACK_HOLE.suctionSpeed * ctx.blackHolePull * 0.5 / (distToBH * 0.1 + 1)
            let localPull := pullStrength / ctx.sphereScale
            let b := base1.add (dir.smul localPull)
            let swirlX := -dir.y * BLACK_HOLE.spin * 0.02 * ctx.blackHolePull / ctx.sphereScale
            let swirlY := dir.x * BLACK_HOLE.spin * 0.02 * ctx.blackHolePull / ctx.sphereScale
            let b2 : Vec3 := ⟨b.x + swirlX, b.y + swirlY, b.z⟩
            let ab :=
              if distToBH < BLACK_HOLE.horizonRadius * 3
              then min 1 (nd.absorbed + 0.015 * ctx.blackHolePull)
              else nd.absorbed
            (b2, ab)
          else (base1, nd.absorbed)
        let shr : Vec3 := if absorb > 0.1 then inner.1.smul (1 - absorb * 0.02) else inner.1
        (shr, inner.2)
    else (base1, nd.absorbed)
  let base3 := bhBlock.1
  let absorbed1 := bhBlock.2
  let distFromCenter := base3.norm
  let effectiveMaxRadius := dynamicRadius ctx.currentRadius
  let base5 := containBase effectiveMaxRadius (CFG.radius * 0.05) base3
  let drift1 : Vec3 :=
    if distFromCenter > effectiveMaxRadius then
      let normal := vnormalize ((vnormalize base3).smul effectiveMaxRadius)
      let d := (vreflect nd.driftVel normal).smul 0.4
      ⟨d.x + (j1 - 0.5) * 0.01, d.y + (j2 - 0.5) * 0.01, d.z + (j3 - 0.5) * 0.01⟩
    else nd.driftVel
  let absorbed2 := if ¬bhActive then max 0 (absorbed1 - 0.02) else absorbed1
  let opacity1 := (0.4 + activity * 0.4) * max 0 (1 - absorb)
  let scale2 := max 0.01 (1 - absorb)
  let offset := Real.sin (ctx.t * 3 + (i : ℝ)) * 0.1 * (1 - absorb * 0.5)
  { nd with
    basePos := base5
    driftVel := drift1
    absorbed := absorbed2
    scale := scale2
    opacity := opacity1
    position := ((base5.smul ctx.sphereScale).add ctx.spherePos).add
      (nd.unitDir.smul offset) }

/-- The `neurons.forEach` of `NeuralNet.update`, threading the loop index;
the fresh `Math.random()` jitter draws of node `i` are modelled by the
independent stream entries `rnd (3i) .. rnd (3i+2)`. -/
def neuralUpdateAux (ctx : NodeCtx) (rnd : ℕ → ℝ) : ℕ → List Node → List Node
  | _, [] => []
  | i, nd :: rest =>
    nodeStep ctx (rnd (3 * i)) (rnd (3 * i + 1)) (rnd (3 * i + 2)) i nd ::
      neuralUpdateAux ctx rnd (i + 1) rest

/-- `NeuralNet.update` restricted to the node buffer (the synapse pass only
rewrites line geometry/opacity from the already-updated node positions). -/
def neuralUpdate (ctx : NodeCtx) (rnd : ℕ → ℝ) (nodes : List Node) : List Node :=
  neuralUpdateAux ctx rnd 0 nodes

lemma Vec3.norm_smul (a : Vec3) (k : ℝ) : (a.smul k).norm = a.norm * |k| := by
  unfold Vec3.norm
  rw [Vec3.normSq_smul, Real.sqrt_mul (Vec3.normSq_nonneg a), Real.sqrt_sq_eq_abs]

lemma vnormalize_norm_le_one (v : Vec3) : (vnormalize v).norm ≤ 1 := by
  unfold vnormalize
  rw [Vec3.norm_smul]
  split_ifs with h
  · rw [h]
    norm_num
  · have h0 : 0 < v.norm := lt_of_le_of_ne (Vec3.norm_nonneg v) (Ne.symm h)
    rw [abs_of_pos (by positivity), mul_one_div, div_self (ne_of_gt h0)]

lemma vnormalize_smul_norm_le (v : Vec3) (m : ℝ) (hm : 0 ≤ m) :
    ((vnormalize v).smul m).norm ≤ m := by
  rw [Vec3.norm_smul, abs_of_nonneg hm]
  calc (vnormalize v).norm * m ≤ 1 * m :=
        mul_le_mul_of_nonneg_right (vnormalize_norm_le_one v) hm
    _ = m := one_mul m

lemma containBase_norm_le (m mu : ℝ) (b3 : Vec3) (hm : 0 ≤ m) (hmu : 0 ≤ mu) :
    (containBase m mu b3).norm ≤ max m mu := by
  simp only [containBase]
  split_ifs with h1 h2 h3
  · exact le_trans (vnormalize_smul_norm_le _ _ hmu) (le_max_right m mu)
  · exact le_trans (vnormalize_smul_norm_le _ _ hmu) (le_max_right m mu)
  · exact le_trans (vnormalize_smul_norm_le _ _ hm) (le_max_left m mu)
  · exact le_trans (not_lt.mp h3) (le_max_left m mu)

lemma nodeStep_basePos_norm_le (ctx : NodeCtx) (j1 j2 j3 : ℝ) (i : ℕ) (nd : Node)
    (hm : 0 ≤ dynamicRadius ctx.currentRadius) :
    (nodeStep ctx j1 j2 j3 i nd).basePos.norm
      ≤ max (dynamicRadius ctx.currentRadius) (CFG.radius * 0.05) := by
  have hex : ∃ b3, (nodeStep ctx j1 j2 j3 i nd).basePos
      = containBase (dynamicRadius ctx.currentRadius) (CFG.radius * 0.05) b3 :=
    ⟨_, rfl⟩
  obtain ⟨b3, hb3⟩ := hex
  rw [hb3]
  exact containBase_norm_le _ _ _ hm (by norm_num [CFG.radius])

lemma neuralUpdateAux_mem (ctx : NodeCtx) (rnd : ℕ → ℝ) :
    ∀ (nodes : List Node) (i : ℕ) (x : Node),
      x ∈ neuralUpdateAux ctx rnd i nodes →
      ∃ j1 j2 j3 k nd, x = nodeStep ctx j1 j2 j3 k nd := by
  intro nodes
  induction nodes with
  | nil =>
    intro i x hx
    simp [neuralUpdateAux] at hx
  | cons nd rest ih =>
    intro i x hx
    simp only [neuralUpdateAux, List.mem_cons] at hx
    rcases hx with h | h
    · exact ⟨_, _, _, _, _, h⟩
    · exact ih (i + 1) x h

/-- C6 (amended): after the node swarm's per-tick update (containment clamp
last), every node's `|basePosition|` is at most the *maximum* of the
dynamic shell radius (`(currentRadius || CFG.radius) * 0.9`) and the
minimum-radius floor `CFG.radius * 0.05`; the minimum-radius clamp is
tested against the pre-clamp distance and can push a node back out to
`CFG.radius * 0.05` whenever the dynamic radius is smaller than that. -/
theorem C6_node_basePos_le_max_dynamic_min_radius
    (ctx : NodeCtx) (rnd : ℕ → ℝ) (nodes : List Node)
    (hm : 0 ≤ dynamicRadius ctx.currentRadius) :
    ∀ x ∈ neuralUpdate ctx rnd nodes,
      x.basePos.norm ≤ max (dynamicRadius ctx.currentRadius) (CFG.radius * 0.05) := by
  intro x hx
  obtain ⟨j1, j2, j3, k, nd, rfl⟩ := neuralUpdateAux_mem ctx rnd nodes 0 x hx
  exact nodeStep_basePos_norm_le ctx j1 j2 j3 k nd hm

/-- Concrete inputs on which the minimum-radius clamp overrides the dynamic
containment clamp: a live shell radius of 0.2 gives a dynamic bound of
0.18, yet the node ends at distance 0.4. -/
def ctxC6 : NodeCtx :=
  { stressLevel := 0, sphereScale := 1, spherePos := Vec3.zero,
    blackHolePos := none, modeSingularity := false, blackHolePull := 0,
    currentRadius := some 0.2, t := 0 }

def nodeC6 : Node :=
  { basePos := ⟨0.3, 0, 0⟩, origPos := Vec3.zero, unitDir := ⟨1, 0, 0⟩,
    initR := 0.3, pulsePhase := 0, driftVel := Vec3.zero, activity := 0,
    absorbed := 0, scale := 1, opacity := 1, position := Vec3.zero }

def rndC6 : ℕ → ℝ := fun _ => 0.5

theorem C6_node_basePos_le_max_dynamic_min_radius_witness :
    ((neuralUpdate ctxC6 rndC6 [nodeC6]).headI).basePos.norm
      ≤ max (dynamicRadius ctxC6.currentRadius) (CFG.radius * 0.05) := by
  apply C6_node_basePos_le_max_dynamic_min_radius ctxC6 rndC6 [nodeC6]
    (by norm_num [dynamicRadius, ctxC6])
  simp [neuralUpdate, neuralUpdateAux]

lemma norm_axis (a : ℝ) (ha : 0 ≤ a) : (⟨a, 0, 0⟩ : Vec3).norm = a := by
  show Real.sqrt (a * a + 0 * 0 + 0 * 0) = a
  rw [show a * a + 0 * 0 + 0 * 0 = a * a by ring, Real.sqrt_mul_self ha]

lemma vnormalize_axis (a : ℝ) (ha : 0 < a) : vnormalize ⟨a, 0, 0⟩ = (⟨1, 0, 0⟩ : Vec3) := by
  unfold vnormalize
  rw [norm_axis a ha.le, if_neg (ne_of_gt ha)]
  show (⟨a * (1 / a), 0 * (1 / a), 0 * (1 / a)⟩ : Vec3) = ⟨1, 0, 0⟩
  rw [mul_one_div, div_self (ne_of_gt ha)]
  norm_num

lemma containC6_eval : containBase 0.18 0.4 ⟨0.3, 0, 0⟩ = (⟨0.4, 0, 0⟩ : Vec3) := by
  simp only [containBase]
  rw [norm_axis 0.3 (by norm_num)]
  rw [if_pos (by norm_num : (0.3:ℝ) > 0.18), if_pos (by norm_num : (0.3:ℝ) < 0.4)]
  rw [vnormalize_axis 0.3 (by norm_num)]
  have h18 : (⟨1, 0, 0⟩ : Vec3).smul 0.18 = (⟨0.18, 0, 0⟩ : Vec3) := by
    show (⟨1 * 0.18, 0 * 0.18, 0 * 0.18⟩ : Vec3) = _
    norm_num
  rw [h18, vnormalize_axis 0.18 (by norm_num)]
  show (⟨1 * 0.4, 0 * 0.4, 0 * 0.4⟩ : Vec3) = _
  norm_num

lemma nodeStepC6_basePos : (nodeStep ctxC6 0.5 0.5 0.5 0 nodeC6).basePos
    = containBase 0.18 0.4 ⟨0.3, 0, 0⟩ := by
  norm_num [nodeStep, ctxC6, nodeC6, dynamicRadius, CFG.radius, Vec3.add, Vec3.zero]

/-- C6 (counterexample to the claim as stated): with the live shell radius
0.2 (so dynamicMaxRadius = 0.18), a node starting at distance 0.3 with no
drift ends the tick at distance 0.4 — beyond dynamicMaxRadius plus a
tolerance of 0.01 — because the minimum-radius clamp re-expands it. -/
theorem C6_node_containment_counterexample :
    ¬ (((neuralUpdate ctxC6 rndC6 [nodeC6]).headI).basePos.norm
        ≤ dynamicRadius ctxC6.currentRadius + 0.01) := by
  have hlist : neuralUpdate ctxC6 rndC6 [nodeC6]
      = [nodeStep ctxC6 0.5 0.5 0.5 0 nodeC6] := by
    norm_num [neuralUpdate, neuralUpdateAux, rndC6]
  rw [hlist]
  show ¬ ((nodeStep ctxC6 0.5 0.5 0.5 0 nodeC6).basePos.norm
      ≤ dynamicRadius ctxC6.currentRadius + 0.01)
  rw [nodeStepC6_basePos, containC6_eval, norm_axis 0.4 (by norm_num)]
  norm_num [dynamicRadius, ctxC6]

/-! ### ShellDeformer: `SoftBody` (src/src/physics/SoftBody.js)

The per-vertex `Float32Array` buffers are modelled as total functions
`ℕ → Vec3` / `ℕ → ℝ` with an explicit `count`; the `grabPoints` Map and the
`_prevPinch` object are modelled as functions from hand ids (ids as `ℕ`).
`update(hands, singularity, deltaTime, neurons)` also reads the globals
`STATE.mode`, `STATE.blackHolePull`, the wall clock (`performance.now()`),
and the mesh transform; these are supplied in `SBInput` (the world↔local
matrix applications as opaque functions). The vertex-colour writes — a pure
function of the stress/absorption values already modelled — are omitted.
The dead locals of the source (`springK`, `friction`, `gravBase`,
`swirlBase`, `tidalBase`, `horizonPull`, `softR`, `currentPinchState`,
`isTouchingSphere`, `bhFade`) are omitted as well. -/

structure Hand where
  pos : Option Vec3
  pinch : Bool

structure GrabPt where
  vertexIndex : ℕ
  initialHandPos : Vec3

structure NeuronIn where
  basePos : Vec3
  activity : ℝ

structure SBInput where
  hands : Option (List (ℕ × Option Hand))
  singPresent : Bool
  singEnabled : Bool
  singPos : Vec3
  deltaTime : ℝ
  neurons : Option (List NeuronIn)
  tNow : ℝ
  modeSingularity : Bool
  blackHolePull : ℝ
  scaleX : ℝ
  worldToLocal : Vec3 → Vec3
  localToWorld : Vec3 → Vec3

structure SBState where
  count : ℕ
  origPos : ℕ → Vec3
  pos : ℕ → Vec3
  vel : ℕ → Vec3
  absorb : ℕ → ℝ
  grabPoints : ℕ → Option GrabPt
  prevPinch : ℕ → Bool
  centerOfMass : Vec3
  currentRadius : ℝ
  currentRadiusXY : ℝ
  currentRadiusZ : ℝ
  stressEMA : ℝ

/-- `_clamp01` (SoftBody.js line 60). -/
def clamp01 (x : ℝ) : ℝ := if x < 0 then 0 else if x > 1 then 1 else x

/-- `_ease` (SoftBody.js lines 61–64): smoothstep of the clamped input. -/
def ease (t : ℝ) : ℝ :=
  let s := clamp01 t
  s * s * (3 - 2 * s)

/-- `_findClosestVertex(worldPos)` (lines 67–90): running minimum over all
vertices, skipping non-finite entries (none in the finite model); `none`
plays the role of the initial `{index: -1, distance: Infinity}`. -/
def findClosestVertex (inp : SBInput) (st : SBState) (worldPos : Vec3) :
    Option (ℕ × ℝ) :=
  (List.range st.count).foldl
    (fun best i =>
      if jsIsFinite (st.pos i).x ∧ jsIsFinite (st.pos i).y ∧ jsIsFinite (st.pos i).z then
        let world := inp.localToWorld (st.pos i)
        let d := world.dist worldPos
        match best with
        | none => some (i, d)
        | some b => if d < b.2 then some (i, d) else best
      else best)
    none

/-- A processed entry of the local hands list `hl` (lines 198–218);
`grabVertex = none` is the source's `-1`. -/
structure HandLocal where
  hx : ℝ
  hy : ℝ
  hz : ℝ
  pinch : Bool
  grabVertex : Option ℕ
  handId : ℕ

/-- One iteration of the hand-processing loop (lines 169–223) for the entry
`e = (handId, hand)`: entries that are `null` or lack a position are skipped
(`if (!h || !h.pos) continue`); a pinching hand with no previous pinch grabs
the closest vertex within the touch radius; a non-pinching hand deletes its
anchor. -/
def handsStep (inp : SBInput) (st : SBState) (touchRadius : ℝ)
    (acc : (ℕ → Option GrabPt) × (ℕ → Bool) × List HandLocal)
    (e : ℕ × Option Hand) :
    (ℕ → Option GrabPt) × (ℕ → Bool) × List HandLocal :=
  match e.2 with
  | none => acc
  | some h =>
    match h.pos with
    | none => acc
    | some hpos =>
      let handId := e.1
      let vTmp := inp.worldToLocal hpos
      let vHandWorld := hpos
      if h.pinch then
        let gp1 :=
          if acc.2.1 handId = false then
            match findClosestVertex inp st vHandWorld with
            | some c =>
              if c.2 < touchRadius then
                Function.update acc.1 handId (some ⟨c.1, vHandWorld⟩)
              else acc.1
            | none => acc.1
          else acc.1
        (gp1, Function.update acc.2.1 handId true,
          acc.2.2 ++ [⟨vTmp.x, vTmp.y, vTmp.z, true,
            (gp1 handId).map GrabPt.vertexIndex, handId⟩])
      else
        (Function.update acc.1 handId none,
          Function.update acc.2.1 handId false,
          acc.2.2 ++ [⟨vTmp.x, vTmp.y, vTmp.z, false, none, handId⟩])

/-- The hand-processing loop (lines 169–223): builds the local hands list
and mutates the grab map and previous-pinch record. -/
def handsPass (inp : SBInput) (st : SBState) (touchRadius : ℝ) :
    (ℕ → Option GrabPt) × (ℕ → Bool) × List HandLocal :=
  match inp.hands with
  | none => (st.grabPoints, st.prevPinch, [])
  | some entries =>
    entries.foldl (handsStep inp st touchRadius) (st.grabPoints, st.prevPinch, [])

/-- The stale-grab cleanup loop (lines 226–230): an anchor survives exactly
when its hand id is still a key of the input map (`handId in (hands||{})`,
regardless of the entry's value). -/
def cleanupGrabs (hands : Option (List (ℕ × Option Hand)))
    (gp : ℕ → Option GrabPt) : ℕ → Option GrabPt :=
  fun id =>
    match hands with
    | none => none
    | some entries => if id ∈ entries.map Prod.fst then gp id else none

/-- The per-tick context shared by every vertex iteration (lines 128–266). -/
structure VCtx where
  origPos : ℕ → Vec3
  breathing : ℝ
  bhEnabled : Bool
  bhL : Vec3
  influenceR : ℝ
  horizonR : ℝ
  pull : ℝ
  dt : ℝ
  sphereScale : ℝ
  hl : List HandLocal
  neurons : Option (List NeuronIn)
  cx : ℝ
  cy : ℝ
  cz : ℝ

/-- The mutable accumulators of the vertex loop (buffers plus the running
stress maximum and the centre-of-mass / radius sums, lines 259–266). -/
structure LoopSt where
  pos : ℕ → Vec3
  vel : ℕ → Vec3
  absorb : ℕ → ℝ
  maxStress : ℝ
  sumRadius : ℝ
  sumRadiusXY : ℝ
  sumRadiusZ : ℝ
  sumX : ℝ
  sumY : ℝ
  sumZ : ℝ

/-- Squared distance from a vertex to the deep tunnel target
`(bhX, bhY, bhZ − tunnelDepth)` (lines 434–442). -/
def bhDistSq (c : VCtx) (p : Vec3) : ℝ :=
  let targetZ := c.bhL.z - BLACK_HOLE.tunnelDepth
  let dx := c.bhL.x - p.x
  let dy := c.bhL.y - p.y
  let dz := targetZ - p.z
  dx * dx + dy * dy + dz * dz

/-- Softened distance to the deep tunnel target (lines 448–449). -/
def bhSafeDist (c : VCtx) (p : Vec3) : ℝ :=
  Real.sqrt (bhDistSq c p + BLACK_HOLE.eps * BLACK_HOLE.eps)

/-- The per-tick absorption transition of one vertex inside the enabled
attractor block: far decay (line 479), unchanged on capture (lines
482–490), horizon accrual (lines 567–582), else relaxation (line 615). -/
def bhAbsorbNext (horizonR dt pull distSq safeDist influenceR a : ℝ) : ℝ :=
  if distSq > influenceR * influenceR then max 0 (a - 1.0 * dt)
  else if a ≥ 0.95 ∨ distSq < 1.0 then a
  else if safeDist < horizonR then
    let absorbRaw :=
      min 1 ((horizonR - safeDist) / (horizonR - BLACK_HOLE.absorbRadius))
        * BLACK_HOLE.absorbRate * dt * pull
    min 1 (a + min absorbRaw 0.015)
  else max 0 (a - 0.25 * dt)

/-- The result of one vertex iteration for vertex `i`: its new position,
velocity and absorption, plus the stress value when it was computed
(`none` when the captured-vertex `continue` skipped it). -/
structure VOut where
  p : Vec3
  v : Vec3
  a : ℝ
  stress : Option ℝ

/-- Common tail of a (non-captured) vertex iteration: fixed damping,
integration at `dt·60`, and the stress against the rest position
(lines 622–638). -/
def vertexIntegrate (c : VCtx) (i : ℕ) (pc vc : Vec3) (ab : ℝ) : VOut :=
  let v11 : Vec3 := ⟨vc.x * 0.88, vc.y * 0.88, vc.z * 0.88⟩
  let pf : Vec3 := ⟨pc.x + v11.x * c.dt * 60, pc.y + v11.y * c.dt * 60,
    pc.z + v11.z * c.dt * 60⟩
  let sx := pf.x - (c.origPos i).x
  let sy := pf.y - (c.origPos i).y
  let sz := pf.z - (c.origPos i).z
  ⟨pf, v11, ab, some (Real.sqrt (sx * sx + sy * sy + sz * sz))⟩

/-- Forces, attractor physics and integration for vertex `i`
(lines 286–638, colour writes omitted): spring toward the breathing rest
target, neuron repulsion, hand grab/push forces, then the enabled-attractor
block with its far/captured/influence routing. -/
def vertexOutcome (c : VCtx) (ls : LoopSt) (i : ℕ) : VOut :=
  let x := (ls.pos i).x
  let y := (ls.pos i).y
  let z := (ls.pos i).z
  let vertexAbsorb := ls.absorb i
  let shrinkFactor := max 0 (1.0 - vertexAbsorb)
  let ox := (c.origPos i).x * c.breathing * shrinkFactor
  let oy := (c.origPos i).y * c.breathing * shrinkFactor
  let oz := (c.origPos i).z * c.breathing * shrinkFactor
  let absorbReduction := 1.0 - vertexAbsorb * 0.8
  let springFactor :=
    if c.bhEnabled = true then max 0.05 ((1 - c.pull * 0.9) * absorbReduction)
    else 1.0
  let v1 : Vec3 := ⟨(ls.vel i).x + (ox - x) * CFG.spring * springFactor,
    (ls.vel i).y + (oy - y) * CFG.spring * springFactor,
    (ls.vel i).z + (oz - z) * CFG.spring * springFactor⟩
  let v2 : Vec3 :=
    match c.neurons with
    | none => v1
    | some ns =>
      ns.foldl (fun (v : Vec3) n =>
        let dx := x - n.basePos.x
        let dy := y - n.basePos.y
        let dz := z - n.basePos.z
        let d2 := dx * dx + dy * dy + dz * dz
        if d2 < 2.25 then
          let dist := Real.sqrt d2 + 0.001
          let pushFactor := 1.0 - dist / 1.5
          let strength := pushFactor * (0.15 + n.activity * 0.25)
          ⟨v.x + dx / dist * strength, v.y + dy / dist * strength,
            v.z + dz / dist * strength⟩
        else v) v1
  let v3 : Vec3 :=
    c.hl.foldl (fun (v : Vec3) hand =>
      let dxh := x - hand.hx
      let dyh := y - hand.hy
      let dzh := z - hand.hz
      let d2h := dxh * dxh + dyh * dyh + dzh * dzh
      if hand.pinch then
        match hand.grabVertex with
        | none => v
        | some gv =>
          let handDist := Real.sqrt d2h
          let gx := (ls.pos gv).x
          let gy := (ls.pos gv).y
          let gz := (ls.pos gv).z
          if i = gv then
            let basePull := min (handDist * 0.12) CFG.gripStrength
            let pullStrength := basePull * 0.8
            if handDist > 0.1 then
              ⟨v.x + -dxh / handDist * pullStrength,
                v.y + -dyh / handDist * pullStrength,
                v.z + -dzh / handDist * pullStrength⟩
            else v
          else
            let distToGrab := Real.sqrt
              ((x - gx) ^ 2 + (y - gy) ^ 2 + (z - gz) ^ 2)
            if distToGrab < 10.0 then
              let dgx := gx - x
              let dgy := gy - y
              let dgz := gz - z
              let origG := c.origPos gv
              let grabDisplacement := Real.sqrt
                ((gx - origG.x) ^ 2 + (gy - origG.y) ^ 2 + (gz - origG.z) ^ 2)
              let falloff := Real.rpow (1 - distToGrab / 10.0) 1.5
              let followStrength := grabDisplacement * 0.15 * falloff
              if followStrength > 0.001 then
                let nrm := distToGrab + 0.01
                ⟨v.x + dgx / nrm * followStrength,
                  v.y + dgy / nrm * followStrength,
                  v.z + dgz / nrm * followStrength⟩
              else v
            else v
      else
        if d2h < CFG.pushRange * CFG.pushRange then
          let d := Real.sqrt d2h + 1e-6
          let tFac := 1 - d / CFG.pushRange
          let str := ease tFac * 0.15
          ⟨v.x + dxh / d * str, v.y + dyh / d * str, v.z + dzh / d * str⟩
        else v) v2
  let a := ls.absorb i
  if c.bhEnabled = true then
    let targetZ := c.bhL.z - BLACK_HOLE.tunnelDepth
    let dx := c.bhL.x - x
    let dy := c.bhL.y - y
    let dz := targetZ - z
    let distSq := dx * dx + dy * dy + dz * dz
    let softening := BLACK_HOLE.eps * BLACK_HOLE.eps
    let safeDist := Real.sqrt (distSq + softening)
    let invDist := 1 / safeDist
    let rHatX := dx * invDist
    let rHatY := dy * invDist
    let rHatZ := dz * invDist
    let basePull := BLACK_HOLE.mass / (distSq + softening + 100)
    let distantPull := min basePull (BLACK_HOLE.maxAccel * 0.3)
    let v4 : Vec3 := ⟨v3.x + rHatX * distantPull * c.dt * c.pull,
      v3.y + rHatY * distantPull * c.dt * c.pull,
      v3.z + rHatZ * distantPull * c.dt * c.pull⟩
    let easeF := c.pull * c.dt * BLACK_HOLE.suctionSpeed * 8.0
    let p1 : Vec3 := ⟨x + dx * easeF * 0.8, y + dy * easeF * 0.8,
      z + dz * easeF * 0.5⟩
    let aNext := bhAbsorbNext c.horizonR c.dt c.pull distSq safeDist c.influenceR a
    if distSq > c.influenceR * c.influenceR then
      vertexIntegrate c i p1 v4 aNext
    else if a ≥ 0.95 ∨ distSq < 1.0 then
      ⟨c.bhL, Vec3.zero, a, none⟩
    else
      let tt := 1 - safeDist / c.influenceR
      let infl := tt * tt * (3 - 2 * tt)
      let pinchStrength := BLACK_HOLE.mass / (distSq + softening)
      let clampedPinch := min pinchStrength BLACK_HOLE.maxAccel
      let radialAccel := clampedPinch * c.dt * infl * c.pull
      let v5 : Vec3 := ⟨v4.x + rHatX * radialAccel, v4.y + rHatY * radialAccel,
        v4.z + rHatZ * radialAccel⟩
      let strongPull := infl * c.pull * c.dt * BLACK_HOLE.suctionSpeed * 12
      let p2 : Vec3 := ⟨p1.x + dx * strongPull * 0.1, p1.y + dy * strongPull * 0.1,
        p1.z + dz * strongPull * 0.1⟩
      let tangentX := -rHatY
      let tangentY := rHatX
      let swirlStrength := BLACK_HOLE.spin / (safeDist + 1.0)
      let swirlAccel := swirlStrength * c.dt * infl * c.pull
      let v6 : Vec3 := ⟨v5.x + tangentX * swirlAccel, v5.y + tangentY * swirlAccel,
        v5.z⟩
      let vDotR := v6.x * rHatX + v6.y * rHatY + v6.z * rHatZ
      let tidalR := BLACK_HOLE.tidalRadius / c.sphereScale
      let v7 : Vec3 :=
        if safeDist < tidalR then
          let tidalFactor := 1 - safeDist / tidalR
          let radialVx := vDotR * rHatX
          let radialVy := vDotR * rHatY
          let radialVz := vDotR * rHatZ
          let perpVx := v6.x - radialVx
          let perpVy := v6.y - radialVy
          let perpVz := v6.z - radialVz
          let compression := 1 - tidalFactor * 0.75 * BLACK_HOLE.tidalStrength
          let va : Vec3 := ⟨radialVx + perpVx * compression,
            radialVy + perpVy * compression, radialVz + perpVz * compression⟩
          let radialBoost := 1 + tidalFactor * 0.15 * BLACK_HOLE.tidalStrength
          ⟨va.x + rHatX * (radialBoost - 1) * |vDotR|,
            va.y + rHatY * (radialBoost - 1) * |vDotR|,
            va.z + rHatZ * (radialBoost - 1) * |vDotR|⟩
        else v6
      let dragFactor := 1 - BLACK_HOLE.drag * c.dt * infl * c.pull
      let damp := max 0.85 dragFactor
      let v8 : Vec3 := ⟨v7.x * damp, v7.y * damp, v7.z * damp⟩
      if safeDist < c.horizonR then
        let absorbRaw :=
          min 1 ((c.horizonR - safeDist) / (c.horizonR - BLACK_HOLE.absorbRadius))
            * BLACK_HOLE.absorbRate * c.dt * c.pull
        let absorbD := min absorbRaw 0.015
        let pullToBH := absorbD * 2.5
        let p3 : Vec3 := ⟨p2.x + dx * pullToBH * 0.1, p2.y + dy * pullToBH * 0.1,
          p2.z + dz * pullToBH * 0.1⟩
        let depth := BLACK_HOLE.tunnelDepth * (0.35 + 0.65 * c.pull)
        let p4 : Vec3 := ⟨p3.x, p3.y, p3.z - absorbD * depth * 0.5⟩
        let velocityDampen := 1 - 0.6 * aNext
        let v9 : Vec3 := ⟨v8.x * velocityDampen, v8.y * velocityDampen,
          v8.z * velocityDampen⟩
        let absR := BLACK_HOLE.absorbRadius / c.sphereScale
        if safeDist < absR then
          let lerpFactor := 0.2 * aNext
          let p5 : Vec3 := ⟨p4.x + (c.bhL.x - p4.x) * lerpFactor,
            p4.y + (c.bhL.y - p4.y) * lerpFactor,
            p4.z + (c.bhL.z - p4.z) * lerpFactor⟩
          let v10 : Vec3 := ⟨v9.x * 0.15, v9.y * 0.15, v9.z * 0.15⟩
          vertexIntegrate c i p5 v10 aNext
        else
          vertexIntegrate c i p4 v9 aNext
      else
        vertexIntegrate c i p2 v8 aNext
  else
    vertexIntegrate c i ⟨x, y, z⟩ v3 a

/-- One iteration of the main vertex loop of `SoftBody.update`
(lines 268–668): accumulate the centre-of-mass and radius sums, compute
the vertex outcome, and write it back into the buffers; the running stress
maximum is only updated when the stress was computed (no capture). -/
def vertexStep (c : VCtx) (ls : LoopSt) (i : ℕ) : LoopSt :=
  let x := (ls.pos i).x
  let y := (ls.pos i).y
  let z := (ls.pos i).z
  let dx0 := x - c.cx
  let dy0 := y - c.cy
  let dz0 := z - c.cz
  let o := vertexOutcome c ls i
  { pos := Function.update ls.pos i o.p
    vel := Function.update ls.vel i o.v
    absorb := Function.update ls.absorb i o.a
    maxStress :=
      match o.stress with
      | none => ls.maxStress
      | some s => max ls.maxStress s
    sumRadius := ls.sumRadius + Real.sqrt (dx0 * dx0 + dy0 * dy0 + dz0 * dz0)
    sumRadiusXY := ls.sumRadiusXY + Real.sqrt (dx0 * dx0 + dy0 * dy0)
    sumRadiusZ := ls.sumRadiusZ + |dz0|
    sumX := ls.sumX + x
    sumY := ls.sumY + y
    sumZ := ls.sumZ + z }

/-- Clamped frame time, line 128: `min(0.033, max(0.008, deltaTime || 0.016))`. -/
def sbDt (deltaTime : ℝ) : ℝ :=
  min 0.033 (max 0.008 (if deltaTime = 0 then 0.016 else deltaTime))

/-- `mesh.scale.x || 1`, line 154. -/
def sbScale (scaleX : ℝ) : ℝ := if scaleX = 0 then 1 else scaleX

/-- `singularity && singularity.enabled && STATE.blackHolePull > 0.001`,
line 238. -/
def sbBhEnabled (inp : SBInput) : Bool :=
  inp.singPresent && (inp.singEnabled && decide (0.001 < inp.blackHolePull))

/-- The per-tick vertex-loop context assembled by lines 128–266: clamped
`dt`, breathing factor, processed hands list, and the attractor state
transformed into the mesh's local frame. -/
def sbCtx (inp : SBInput) (st : SBState) : VCtx :=
  let dt := sbDt inp.deltaTime
  let t := inp.tNow
  let sphereScale := sbScale inp.scaleX
  let sphereRadius := CFG.radius * sphereScale
  let breathingActive := inp.modeSingularity = false ∨ inp.blackHolePull < 0.3
  let breathing := if breathingActive then 1.0 + Real.sin (t * 1.2) * 0.025 else 1.0
  let touchRadius := sphereRadius * 2.5
  let hp := handsPass inp st touchRadius
  let bhE := sbBhEnabled inp
  { origPos := st.origPos
    breathing := breathing
    bhEnabled := bhE
    bhL := if bhE = true then inp.worldToLocal inp.singPos else Vec3.zero
    influenceR := if bhE = true then BLACK_HOLE.influenceRadius / sphereScale else 0
    horizonR := if bhE = true then BLACK_HOLE.horizonRadius / sphereScale else 0
    pull := if bhE = true then inp.blackHolePull else 0
    dt := dt
    sphereScale := sphereScale
    hl := hp.2.2
    neurons := inp.neurons
    cx := st.centerOfMass.x
    cy := st.centerOfMass.y
    cz := st.centerOfMass.z }

/-- The loop accumulators at loop entry (lines 259–266). -/
def initLoopSt (st : SBState) : LoopSt :=
  { pos := st.pos, vel := st.vel, absorb := st.absorb, maxStress := 0,
    sumRadius := 0, sumRadiusXY := 0, sumRadiusZ := 0,
    sumX := 0, sumY := 0, sumZ := 0 }

/-- `SoftBody.update(hands, singularity, deltaTime, neurons)`, lines
127–704: NaN scan, hand processing and grab bookkeeping, the main vertex
loop, the emergency reset, the stress EMA, and the centre-of-mass / radius
aggregate updates. -/
def softBodyUpdate (inp : SBInput) (st : SBState) : SBState :=
  let hasNaN := (List.range st.count).any (fun i =>
    jsIsNaN (st.pos i).x || jsIsNaN (st.pos i).y || jsIsNaN (st.pos i).z)
  let touchRadius := CFG.radius * sbScale inp.scaleX * 2.5
  let hp := handsPass inp st touchRadius
  let gp2 := cleanupGrabs inp.hands hp.1
  let c := sbCtx inp st
  let ls1 := (List.range st.count).foldl (vertexStep c) (initLoopSt st)
  let pos2 := if hasNaN = true then
      (fun i => if i < st.count then st.origPos i else ls1.pos i)
    else ls1.pos
  let vel2 := if hasNaN = true then
      (fun i => if i < st.count then Vec3.zero else ls1.vel i)
    else ls1.vel
  let ab2 := if hasNaN = true then
      (fun i => if i < st.count then 0 else ls1.absorb i)
    else ls1.absorb
  let ema := st.stressEMA * 0.92 + ls1.maxStress * 0.08
  let base := { st with
    pos := pos2
    vel := vel2
    absorb := ab2
    grabPoints := gp2
    prevPinch := hp.2.1
    stressEMA := ema }
  if 0 < st.count then
    { base with
      currentRadius := ls1.sumRadius / (st.count : ℝ)
      currentRadiusXY := ls1.sumRadiusXY / (st.count : ℝ)
      currentRadiusZ := ls1.sumRadiusZ / (st.count : ℝ)
      centerOfMass := ⟨ls1.sumX / (st.count : ℝ), ls1.sumY / (st.count : ℝ),
        ls1.sumZ / (st.count : ℝ)⟩ }
  else base

/-- `SoftBody.reset()`, lines 93–125: restore rest positions, zero
velocities and absorption, reset the centre of mass and the cached radius. -/
def softBodyReset (st : SBState) : SBState :=
  { st with
    pos := fun i => if i < st.count then st.origPos i else st.pos i
    vel := fun i => if i < st.count then Vec3.zero else st.vel i
    absorb := fun i => if i < st.count then 0 else st.absorb i
    centerOfMass := Vec3.zero
    currentRadius := CFG.radius }

/-- C9: after `SoftBody.reset()`, every vertex sits at its rest position
with zero velocity and zero absorption. -/
theorem C9_reset_restores_rest_state (st : SBState) (i : ℕ) (hi : i < st.count) :
    (softBodyReset st).pos i = st.origPos i ∧
    (softBodyReset st).vel i = Vec3.zero ∧
    (softBodyReset st).absorb i = 0 := by
  refine ⟨?_, ?_, ?_⟩ <;> simp [softBodyReset, hi]

/-- A concrete one-vertex shell state. -/
def stC9 : SBState :=
  { count := 1, origPos := fun _ => ⟨1, 2, 3⟩, pos := fun _ => ⟨4, 5, 6⟩,
    vel := fun _ => ⟨7, 8, 9⟩, absorb := fun _ => 0.5,
    grabPoints := fun _ => none, prevPinch := fun _ => false,
    centerOfMass := ⟨1, 1, 1⟩, currentRadius := 2, currentRadiusXY := 2,
    currentRadiusZ := 2, stressEMA := 0.3 }

theorem C9_reset_restores_rest_state_witness :
    (softBodyReset stC9).pos 0 = stC9.origPos 0 ∧
    (softBodyReset stC9).vel 0 = Vec3.zero ∧
    (softBodyReset stC9).absorb 0 = 0 :=
  C9_reset_restores_rest_state stC9 0 (by norm_num [stC9])

lemma vertexStep_absorb_other (c : VCtx) (ls : LoopSt) (i j : ℕ) (hij : j ≠ i) :
    (vertexStep c ls i).absorb j = ls.absorb j := by
  simp only [vertexStep]
  rw [Function.update_noteq hij]

lemma vertexStep_pos_other (c : VCtx) (ls : LoopSt) (i j : ℕ) (hij : j ≠ i) :
    (vertexStep c ls i).pos j = ls.pos j := by
  simp only [vertexStep]
  rw [Function.update_noteq hij]

lemma vertexStep_vel_other (c : VCtx) (ls : LoopSt) (i j : ℕ) (hij : j ≠ i) :
    (vertexStep c ls i).vel j = ls.vel j := by
  simp only [vertexStep]
  rw [Function.update_noteq hij]

lemma vertexStep_absorb_self (c : VCtx) (ls : LoopSt) (i : ℕ) :
    (vertexStep c ls i).absorb i = (vertexOutcome c ls i).a := by
  simp only [vertexStep]
  rw [Function.update_same]

lemma vertexIntegrate_a (c : VCtx) (i : ℕ) (pc vc : Vec3) (ab : ℝ) :
    (vertexIntegrate c i pc vc ab).a = ab := rfl

lemma vertexIntegrate_stress (c : VCtx) (i : ℕ) (pc vc : Vec3) (ab : ℝ) :
    (vertexIntegrate c i pc vc ab).stress
      = some (Vec3.dist (vertexIntegrate c i pc vc ab).p (c.origPos i)) := rfl

lemma vertexOutcome_a (c : VCtx) (ls : LoopSt) (i : ℕ) :
    (vertexOutcome c ls i).a
      = if c.bhEnabled = true
        then bhAbsorbNext c.horizonR c.dt c.pull (bhDistSq c (ls.pos i))
          (bhSafeDist c (ls.pos i)) c.influenceR (ls.absorb i)
        else ls.absorb i := by
  by_cases hbh : c.bhEnabled = true
  · simp only [vertexOutcome, hbh, if_true, apply_ite VOut.a, vertexIntegrate_a,
      ite_self, bhDistSq, bhSafeDist]
    split_ifs with h1 h2
    · rfl
    · simp only [bhAbsorbNext]
      rw [if_neg h1, if_pos h2]
    · rfl
  · simp only [vertexOutcome]
    rw [if_neg hbh, vertexIntegrate_a, if_neg hbh]

lemma vertexOutcome_stress_nobh (c : VCtx) (ls : LoopSt) (i : ℕ)
    (hbh : c.bhEnabled = false) :
    (vertexOutcome c ls i).stress
      = some (Vec3.dist (vertexOutcome c ls i).p (c.origPos i)) := by
  simp only [vertexOutcome]
  rw [if_neg (by simp [hbh])]
  exact vertexIntegrate_stress c i _ _ _

lemma vertexStep_maxStress_nobh (c : VCtx) (ls : LoopSt) (i : ℕ)
    (hbh : c.bhEnabled = false) :
    (vertexStep c ls i).maxStress
      = max ls.maxStress (Vec3.dist ((vertexStep c ls i).pos i) (c.origPos i)) := by
  simp only [vertexStep, Function.update_same]
  rw [vertexOutcome_stress_nobh c ls i hbh]

lemma absorbDelta_nonneg (h dt pull safeDist : ℝ)
    (hdt : 0 < dt) (hpull : 0 ≤ pull) (h4 : 4 < h) (hin : safeDist < h) :
    0 ≤ min (min 1 ((h - safeDist) / (h - BLACK_HOLE.absorbRadius))
        * BLACK_HOLE.absorbRate * dt * pull) 0.015 := by
  have hden : 0 < h - BLACK_HOLE.absorbRadius := by
    simp only [BLACK_HOLE.absorbRadius]
    linarith
  have hq : 0 < (h - safeDist) / (h - BLACK_HOLE.absorbRadius) :=
    div_pos (by linarith) hden
  have hraw : 0 ≤ min 1 ((h - safeDist) / (h - BLACK_HOLE.absorbRadius))
      * BLACK_HOLE.absorbRate * dt * pull := by
    have h0 : 0 ≤ min 1 ((h - safeDist) / (h - BLACK_HOLE.absorbRadius)) :=
      le_min (by norm_num) hq.le
    have h1 : (0:ℝ) ≤ BLACK_HOLE.absorbRate := by norm_num [BLACK_HOLE.absorbRate]
    positivity
  exact le_min hraw (by norm_num)

/-- Starting inside `[0,1]`, the per-tick absorption transition stays
inside `[0,1]` whenever the scaled horizon radius exceeds the (unscaled)
absorb radius on the branch that can reach the accrual formula. -/
lemma bhAbsorbNext_mem (h dt pull distSq safeDist inflR a : ℝ)
    (hdt : 0 < dt) (hpull : 0 ≤ pull) (hh : safeDist < h → 4 < h)
    (ha0 : 0 ≤ a) (ha1 : a ≤ 1) :
    0 ≤ bhAbsorbNext h dt pull distSq safeDist inflR a ∧
      bhAbsorbNext h dt pull distSq safeDist inflR a ≤ 1 := by
  unfold bhAbsorbNext
  split_ifs with h1 h2 h3
  · exact ⟨le_max_left _ _, max_le (by norm_num) (by linarith)⟩
  · exact ⟨ha0, ha1⟩
  · have hδ := absorbDelta_nonneg h dt pull safeDist hdt hpull (hh h3) h3
    exact ⟨le_min (by norm_num) (by linarith), min_le_left _ _⟩
  · exact ⟨le_max_left _ _, max_le (by norm_num) (by linarith)⟩

/-- Inside the horizon (softened distance to the deep target below the
scaled horizon radius) the absorption transition is non-decreasing. -/
lemma bhAbsorbNext_mono (h dt pull distSq safeDist inflR a : ℝ)
    (hdt : 0 < dt) (hpull : 0 ≤ pull) (ha1 : a ≤ 1)
    (hs0 : 0 ≤ safeDist) (hds : distSq ≤ safeDist ^ 2)
    (hhi : h ≤ inflR) (h4 : 4 < h) (hin : safeDist < h) :
    a ≤ bhAbsorbNext h dt pull distSq safeDist inflR a := by
  unfold bhAbsorbNext
  have hfar : ¬ (distSq > inflR * inflR) := by
    push_neg
    nlinarith
  rw [if_neg hfar]
  split_ifs with h2
  · exact le_rfl
  · have hδ := absorbDelta_nonneg h dt pull safeDist hdt hpull h4 hin
    exact le_min ha1 (by linarith)

/-- The main vertex loop as a function of the number of vertices processed. -/
def sbLoop (c : VCtx) (k : ℕ) (ls : LoopSt) : LoopSt :=
  (List.range k).foldl (vertexStep c) ls

lemma sbLoop_succ (c : VCtx) (k : ℕ) (ls : LoopSt) :
    sbLoop c (k + 1) ls = vertexStep c (sbLoop c k ls) k := by
  unfold sbLoop
  rw [List.range_succ, List.foldl_append, List.foldl_cons, List.foldl_nil]

lemma sbLoop_pos_frozen (c : VCtx) :
    ∀ (k : ℕ) (ls : LoopSt) (j : ℕ), k ≤ j → (sbLoop c k ls).pos j = ls.pos j := by
  intro k
  induction k with
  | zero => intro ls j _; rfl
  | succ k ih =>
    intro ls j hj
    rw [sbLoop_succ, vertexStep_pos_other c _ k j (by omega)]
    exact ih ls j (by omega)

lemma sbLoop_absorb_frozen (c : VCtx) :
    ∀ (k : ℕ) (ls : LoopSt) (j : ℕ), k ≤ j →
      (sbLoop c k ls).absorb j = ls.absorb j := by
  intro k
  induction k with
  | zero => intro ls j _; rfl
  | succ k ih =>
    intro ls j hj
    rw [sbLoop_succ, vertexStep_absorb_other c _ k j (by omega)]
    exact ih ls j (by omega)

lemma sbLoop_absorb_inv (c : VCtx) (hdt : 0 < c.dt) (hpull : 0 ≤ c.pull)
    (hh : c.bhEnabled = true → 4 < c.horizonR) :
    ∀ (k : ℕ) (ls : LoopSt),
      (∀ j, 0 ≤ ls.absorb j ∧ ls.absorb j ≤ 1) →
      ∀ j, 0 ≤ (sbLoop c k ls).absorb j ∧ (sbLoop c k ls).absorb j ≤ 1 := by
  intro k
  induction k with
  | zero => intro ls hls j; exact hls j
  | succ k ih =>
    intro ls hls j
    rw [sbLoop_succ]
    rcases eq_or_ne j k with rfl | hjk
    · rw [vertexStep_absorb_self, vertexOutcome_a]
      by_cases hbh : c.bhEnabled = true
      · rw [if_pos hbh]
        exact bhAbsorbNext_mem _ _ _ _ _ _ _ hdt hpull (fun _ => hh hbh)
          (ih ls hls j).1 (ih ls hls j).2
      · rw [if_neg hbh]
        exact ih ls hls j
    · rw [vertexStep_absorb_other c _ k j hjk]
      exact ih ls hls j

lemma bhDistSq_nonneg (c : VCtx) (p : Vec3) : 0 ≤ bhDistSq c p := by
  simp only [bhDistSq]
  have h1 : 0 ≤ (c.bhL.x - p.x) * (c.bhL.x - p.x) := mul_self_nonneg _
  have h2 : 0 ≤ (c.bhL.y - p.y) * (c.bhL.y - p.y) := mul_self_nonneg _
  have h3 : 0 ≤ (c.bhL.z - BLACK_HOLE.tunnelDepth - p.z) *
      (c.bhL.z - BLACK_HOLE.tunnelDepth - p.z) := mul_self_nonneg _
  linarith

lemma bhSafeDist_sq (c : VCtx) (p : Vec3) :
    bhSafeDist c p ^ 2 = bhDistSq c p + BLACK_HOLE.eps * BLACK_HOLE.eps := by
  simp only [bhSafeDist]
  apply Real.sq_sqrt
  have h1 := bhDistSq_nonneg c p
  have h2 : (0:ℝ) ≤ BLACK_HOLE.eps * BLACK_HOLE.eps := by norm_num [BLACK_HOLE.eps]
  linarith

lemma sbLoop_absorb_mono (c : VCtx) (hdt : 0 < c.dt) (hpull : 0 ≤ c.pull)
    (hh4 : 4 < c.horizonR) (hhi : c.horizonR ≤ c.influenceR) :
    ∀ (k : ℕ) (ls : LoopSt) (i : ℕ), i < k →
      (∀ j, 0 ≤ ls.absorb j ∧ ls.absorb j ≤ 1) →
      c.bhEnabled = true →
      bhSafeDist c (ls.pos i) < c.horizonR →
      ls.absorb i ≤ (sbLoop c k ls).absorb i := by
  intro k
  induction k with
  | zero => intro ls i h; exact absurd h (Nat.not_lt_zero i)
  | succ k ih =>
    intro ls i hik hls hbh hdist
    rw [sbLoop_succ]
    rcases Nat.lt_or_ge i k with hik' | hik'
    · rw [vertexStep_absorb_other c _ k i (by omega)]
      exact ih ls i hik' hls hbh hdist
    · have hik2 : i = k := by omega
      subst hik2
      rw [vertexStep_absorb_self, vertexOutcome_a, if_pos hbh,
        sbLoop_pos_frozen c i ls i (le_refl i),
        sbLoop_absorb_frozen c i ls i (le_refl i)]
      apply bhAbsorbNext_mono _ _ _ _ _ _ _ hdt hpull (hls i).2
        (Real.sqrt_nonneg _) _ hhi hh4 hdist
      show bhDistSq c (ls.pos i) ≤ bhSafeDist c (ls.pos i) ^ 2
      rw [bhSafeDist_sq c (ls.pos i)]
      have h2 : (0:ℝ) ≤ BLACK_HOLE.eps * BLACK_HOLE.eps := by
        norm_num [BLACK_HOLE.eps]
      linarith

/-- The entry NaN scan of the finite-valued model is identically `false`. -/
lemma scan_false (n : ℕ) (f : ℕ → Vec3) :
    ((List.range n).any fun i =>
      jsIsNaN (f i).x || jsIsNaN (f i).y || jsIsNaN (f i).z) = false := by
  simp [jsIsNaN]

lemma softBodyUpdate_absorb (inp : SBInput) (st : SBState) :
    (softBodyUpdate inp st).absorb
      = (sbLoop (sbCtx inp st) st.count (initLoopSt st)).absorb := by
  simp only [softBodyUpdate, scan_false, sbLoop, apply_ite SBState.absorb]
  simp

lemma softBodyUpdate_pos (inp : SBInput) (st : SBState) :
    (softBodyUpdate inp st).pos
      = (sbLoop (sbCtx inp st) st.count (initLoopSt st)).pos := by
  simp only [softBodyUpdate, scan_false, sbLoop, apply_ite SBState.pos]
  simp

lemma softBodyUpdate_ema (inp : SBInput) (st : SBState) :
    (softBodyUpdate inp st).stressEMA
      = st.stressEMA * 0.92
        + (sbLoop (sbCtx inp st) st.count (initLoopSt st)).maxStress * 0.08 := by
  simp only [softBodyUpdate, scan_false, sbLoop, apply_ite SBState.stressEMA]
  simp

lemma softBodyUpdate_grabPoints (inp : SBInput) (st : SBState) :
    (softBodyUpdate inp st).grabPoints
      = cleanupGrabs inp.hands
          (handsPass inp st (CFG.radius * sbScale inp.scaleX * 2.5)).1 := by
  simp only [softBodyUpdate, scan_false, apply_ite SBState.grabPoints]
  simp

lemma sbDt_pos (x : ℝ) : 0 < sbDt x := by
  unfold sbDt
  exact lt_min (by norm_num) (lt_of_lt_of_le (by norm_num) (le_max_left _ _))

/-- C4 (amended): provided the effective mesh scale lies in `(0, 2)` — so
that the scaled horizon radius `8/scale` stays above the unscaled absorb
radius 4 — and the pull intensity is non-negative, every vertex absorption
stays within `[0,1]` across an update; and absorption is non-decreasing for
every vertex whose *softened distance to the tunnel-shifted deep target* is
below the scaled horizon radius while the attractor is enabled. -/
theorem C4_absorption_clamped_and_monotone_in_horizon
    (inp : SBInput) (st : SBState)
    (hs0 : 0 < sbScale inp.scaleX) (hs2 : sbScale inp.scaleX < 2)
    (hpull : 0 ≤ inp.blackHolePull)
    (hab : ∀ j, 0 ≤ st.absorb j ∧ st.absorb j ≤ 1) :
    (∀ j, 0 ≤ (softBodyUpdate inp st).absorb j ∧
      (softBodyUpdate inp st).absorb j ≤ 1) ∧
    (∀ i, (sbCtx inp st).bhEnabled = true →
      bhSafeDist (sbCtx inp st) (st.pos i) < (sbCtx inp st).horizonR →
      i < st.count →
      st.absorb i ≤ (softBodyUpdate inp st).absorb i) := by
  have hdt : 0 < (sbCtx inp st).dt := sbDt_pos inp.deltaTime
  have hpull' : 0 ≤ (sbCtx inp st).pull := by
    show 0 ≤ if sbBhEnabled inp = true then inp.blackHolePull else 0
    split_ifs
    · exact hpull
    · exact le_rfl
  have hh : (sbCtx inp st).bhEnabled = true → 4 < (sbCtx inp st).horizonR := by
    intro hbh
    have hbh' : sbBhEnabled inp = true := hbh
    show 4 < if sbBhEnabled inp = true
      then BLACK_HOLE.horizonRadius / sbScale inp.scaleX else 0
    rw [if_pos hbh', lt_div_iff hs0]
    norm_num [BLACK_HOLE.horizonRadius]
    linarith
  constructor
  · intro j
    rw [softBodyUpdate_absorb]
    exact sbLoop_absorb_inv (sbCtx inp st) hdt hpull' hh st.count
      (initLoopSt st) hab j
  · intro i hbh hdist hi
    rw [softBodyUpdate_absorb]
    have hhi : (sbCtx inp st).horizonR ≤ (sbCtx inp st).influenceR := by
      show (if sbBhEnabled inp = true
          then BLACK_HOLE.horizonRadius / sbScale inp.scaleX else 0)
        ≤ (if sbBhEnabled inp = true
          then BLACK_HOLE.influenceRadius / sbScale inp.scaleX else 0)
      have hbh' : sbBhEnabled inp = true := hbh
      rw [if_pos hbh', if_pos hbh', div_le_div_right hs0]
      norm_num [BLACK_HOLE.horizonRadius, BLACK_HOLE.influenceRadius]
    exact sbLoop_absorb_mono (sbCtx inp st) hdt hpull' (hh hbh) hhi st.count
      (initLoopSt st) i hi hab hbh hdist

/-- A quiescent input (no hands, attractor absent, unit scale). -/
def inpC4W : SBInput :=
  { hands := none, singPresent := false, singEnabled := false,
    singPos := Vec3.zero, deltaTime := 0.016, neurons := none, tNow := 0,
    modeSingularity := false, blackHolePull := 0, scaleX := 1,
    worldToLocal := id, localToWorld := id }

theorem C4_absorption_clamped_and_monotone_in_horizon_witness :
    0 ≤ (softBodyUpdate inpC4W stC9).absorb 0 ∧
      (softBodyUpdate inpC4W stC9).absorb 0 ≤ 1 :=
  (C4_absorption_clamped_and_monotone_in_horizon inpC4W stC9
    (by norm_num [sbScale, inpC4W]) (by norm_num [sbScale, inpC4W])
    (by norm_num [inpC4W]) (fun j => by norm_num [stC9])).1 0

/-- An enabled attractor with the mesh scaled to 2.5 (the pulse animation
alone reaches scale 1.2·2 = 2.4 and `setScale` is unbounded). -/
def inpC4 : SBInput :=
  { hands := none, singPresent := true, singEnabled := true,
    singPos := Vec3.zero, deltaTime := 0.016, neurons := none, tNow := 0,
    modeSingularity := true, blackHolePull := 1, scaleX := 2.5,
    worldToLocal := id, localToWorld := id }

/-- One vertex lying between the scaled horizon radius 8/2.5 = 3.2 and the
unscaled absorb radius 4 of the deep target `(0, 0, −8)`. -/
def stC4 : SBState :=
  { count := 1, origPos := fun _ => ⟨-(4/3), 0, -8⟩,
    pos := fun _ => ⟨-(4/3), 0, -8⟩,
    vel := fun _ => Vec3.zero, absorb := fun _ => 0,
    grabPoints := fun _ => none, prevPinch := fun _ => false,
    centerOfMass := Vec3.zero, currentRadius := 8, currentRadiusXY := 8,
    currentRadiusZ := 8, stressEMA := 0 }

/-- C4 counterexample: at mesh scale 2.5 the scaled horizon radius
8/2.5 = 3.2 drops below the unscaled absorb radius 4, the accrual
denominator `horizonR − absorbRadius` turns negative, and one update drives
the vertex absorption to −33/10000 — outside `[0,1]`, and strictly
decreasing although the vertex sits inside the horizon. -/
theorem C4_absorption_negative_counterexample :
    ¬ (0 ≤ (softBodyUpdate inpC4 stC4).absorb 0) := by
  have hbh' : sbBhEnabled inpC4 = true := by
    simp only [sbBhEnabled, inpC4, Bool.and_eq_true, decide_eq_true_eq]
    norm_num
  have hbh : (sbCtx inpC4 stC4).bhEnabled = true := hbh'
  have hhor : (sbCtx inpC4 stC4).horizonR = 3.2 := by
    show (if sbBhEnabled inpC4 = true
      then BLACK_HOLE.horizonRadius / sbScale inpC4.scaleX else 0) = 3.2
    rw [if_pos hbh']
    norm_num [BLACK_HOLE.horizonRadius, sbScale, inpC4]
  have hinfl : (sbCtx inpC4 stC4).influenceR = 34 := by
    show (if sbBhEnabled inpC4 = true
      then BLACK_HOLE.influenceRadius / sbScale inpC4.scaleX else 0) = 34
    rw [if_pos hbh']
    norm_num [BLACK_HOLE.influenceRadius, sbScale, inpC4]
  have hpull : (sbCtx inpC4 stC4).pull = 1 := by
    show (if sbBhEnabled inpC4 = true then inpC4.blackHolePull else 0) = 1
    rw [if_pos hbh']
    rfl
  have hdt : (sbCtx inpC4 stC4).dt = 0.016 := by
    show sbDt inpC4.deltaTime = 0.016
    norm_num [sbDt, inpC4, min_def, max_def]
  have hbhL : (sbCtx inpC4 stC4).bhL = Vec3.zero := by
    show (if sbBhEnabled inpC4 = true
      then inpC4.worldToLocal inpC4.singPos else Vec3.zero) = Vec3.zero
    rw [if_pos hbh']
    rfl
  have hdsq : bhDistSq (sbCtx inpC4 stC4) ((initLoopSt stC4).pos 0) = 16/9 := by
    show bhDistSq (sbCtx inpC4 stC4) ⟨-(4/3), 0, -8⟩ = 16/9
    simp only [bhDistSq, hbhL, Vec3.zero_x, Vec3.zero_y, Vec3.zero_z]
    norm_num [BLACK_HOLE.tunnelDepth]
  have hsd : bhSafeDist (sbCtx inpC4 stC4) ((initLoopSt stC4).pos 0) = 17/6 := by
    unfold bhSafeDist
    rw [hdsq]
    rw [show (16/9 + BLACK_HOLE.eps * BLACK_HOLE.eps : ℝ) = (17/6)^2 by
      norm_num [BLACK_HOLE.eps]]
    exact Real.sqrt_sq (by norm_num)
  have hA0 : (initLoopSt stC4).absorb 0 = 0 := rfl
  have habs : bhAbsorbNext 3.2 0.016 1 (16/9) (17/6) 34 0 = -(33/10000) := by
    unfold bhAbsorbNext
    rw [if_neg (by norm_num), if_neg (by norm_num), if_pos (by norm_num)]
    norm_num [BLACK_HOLE.absorbRadius, BLACK_HOLE.absorbRate, min_def]
  have hchain : (softBodyUpdate inpC4 stC4).absorb 0
      = (vertexOutcome (sbCtx inpC4 stC4) (initLoopSt stC4) 0).a := by
    rw [softBodyUpdate_absorb]
    have h1 : sbLoop (sbCtx inpC4 stC4) 1 (initLoopSt stC4)
        = vertexStep (sbCtx inpC4 stC4) (initLoopSt stC4) 0 :=
      sbLoop_succ (sbCtx inpC4 stC4) 0 (initLoopSt stC4)
    show (sbLoop (sbCtx inpC4 stC4) 1 (initLoopSt stC4)).absorb 0 = _
    rw [h1]
    exact vertexStep_absorb_self _ _ 0
  have hval : (softBodyUpdate inpC4 stC4).absorb 0 = -(33/10000) := by
    rw [hchain, vertexOutcome_a, if_pos hbh, hhor, hdt, hpull, hdsq, hsd,
      hinfl, hA0]
    exact habs
  rw [hval]
  norm_num

lemma vertexStep_pos_self (c : VCtx) (ls : LoopSt) (i : ℕ) :
    (vertexStep c ls i).pos i = (vertexOutcome c ls i).p := by
  simp only [vertexStep]
  rw [Function.update_same]

lemma sbLoop_vel_frozen (c : VCtx) :
    ∀ (k : ℕ) (ls : LoopSt) (j : ℕ), k ≤ j →
      (sbLoop c k ls).vel j = ls.vel j := by
  intro k
  induction k with
  | zero => intro ls j _; rfl
  | succ k ih =>
    intro ls j hj
    rw [sbLoop_succ, vertexStep_vel_other c _ k j (by omega)]
    exact ih ls j (by omega)

/-- With the attractor disabled every vertex's stress is computed, and the
loop's running stress maximum is the max-fold of the distances between the
final vertex positions and the rest positions. -/
lemma sbLoop_maxStress_fold (c : VCtx) (hbh : c.bhEnabled = false) :
    ∀ (k : ℕ) (ls : LoopSt),
      (sbLoop c k ls).maxStress
        = (List.range k).foldl
            (fun m i => max m (Vec3.dist ((sbLoop c k ls).pos i) (c.origPos i)))
            ls.maxStress := by
  intro k
  induction k with
  | zero => intro ls; rfl
  | succ k ih =>
    intro ls
    rw [sbLoop_succ, vertexStep_maxStress_nobh c _ k hbh, ih ls,
      List.range_succ, List.foldl_append, List.foldl_cons, List.foldl_nil]
    congr 1
    apply List.foldl_ext
    intro m i hi
    rw [vertexStep_pos_other c (sbLoop c k ls) k i
      (by simp only [List.mem_range] at hi; omega)]

lemma dist_axis (a : ℝ) (ha : 0 ≤ a) :
    Vec3.dist ⟨a, 0, 0⟩ Vec3.zero = a := by
  show (Vec3.sub ⟨a, 0, 0⟩ Vec3.zero).norm = a
  have h : Vec3.sub ⟨a, 0, 0⟩ Vec3.zero = (⟨a, 0, 0⟩ : Vec3) := by
    simp [Vec3.sub, Vec3.zero]
  rw [h]
  exact norm_axis a ha

/-- C3 (amended): on a tick with the attractor disabled (so that every
vertex's stress is computed), the exported stress scalar is updated as an
exponential moving average with decay 0.92 of the **maximum** of the
per-vertex stress values computed this tick, not their mean:
`newEMA = prevEMA·0.92 + 0.08·max_i |newPos_i − restPos_i|`. -/
theorem C3_stress_ema_is_ema_of_max_stress (inp : SBInput) (st : SBState)
    (hbh : sbBhEnabled inp = false) :
    (softBodyUpdate inp st).stressEMA
      = st.stressEMA * 0.92
        + ((List.range st.count).foldl
            (fun m i => max m
              (Vec3.dist ((softBodyUpdate inp st).pos i) (st.origPos i))) 0)
          * 0.08 := by
  have hbh' : (sbCtx inp st).bhEnabled = false := hbh
  have ho : (sbCtx inp st).origPos = st.origPos := rfl
  have hi0 : (initLoopSt st).maxStress = 0 := rfl
  rw [softBodyUpdate_ema, softBodyUpdate_pos,
    sbLoop_maxStress_fold (sbCtx inp st) hbh' st.count (initLoopSt st), ho, hi0]

theorem C3_stress_ema_is_ema_of_max_stress_witness :
    (softBodyUpdate inpC4W stC9).stressEMA
      = stC9.stressEMA * 0.92
        + ((List.range stC9.count).foldl
            (fun m i => max m
              (Vec3.dist ((softBodyUpdate inpC4W stC9).pos i) (stC9.origPos i))) 0)
          * 0.08 :=
  C3_stress_ema_is_ema_of_max_stress inpC4W stC9 (by simp [sbBhEnabled, inpC4W])

/-- The aggregate the claim asserts the EMA folds in: the MEAN of the
per-vertex stress values computed this tick. This definition follows the
claim's words, for comparison with the code's update. -/
def specMeanStress (inp : SBInput) (st : SBState) : ℝ :=
  ((List.range st.count).foldl
    (fun s i => s + Vec3.dist ((softBodyUpdate inp st).pos i) (st.origPos i)) 0)
    / (st.count : ℝ)

/-- Two vertices, one at rest and one displaced by 3. -/
def stC3 : SBState :=
  { count := 2, origPos := fun _ => Vec3.zero,
    pos := fun i => if i = 0 then Vec3.zero else ⟨3, 0, 0⟩,
    vel := fun _ => Vec3.zero, absorb := fun _ => 0,
    grabPoints := fun _ => none, prevPinch := fun _ => false,
    centerOfMass := Vec3.zero, currentRadius := 8, currentRadiusXY := 8,
    currentRadiusZ := 8, stressEMA := 0 }

/-- C3 counterexample: with two vertices of stress 0 and 2.911296 the code
sets the EMA to 0.08·max = 0.23290368, while the claimed mean update would
give 0.08·mean = 0.11645184. -/
theorem C3_stress_ema_mean_counterexample :
    ¬ ((softBodyUpdate inpC4W stC3).stressEMA
        = stC3.stressEMA * 0.92 + specMeanStress inpC4W stC3 * 0.08) := by
  have hbhF : (sbCtx inpC4W stC3).bhEnabled = false := by
    show sbBhEnabled inpC4W = false
    simp [sbBhEnabled, inpC4W]
  have hhl : (sbCtx inpC4W stC3).hl = [] := rfl
  have hn : (sbCtx inpC4W stC3).neurons = none := rfl
  have hdt : (sbCtx inpC4W stC3).dt = 0.016 := by
    show sbDt inpC4W.deltaTime = 0.016
    norm_num [sbDt, inpC4W, min_def, max_def]
  have hbr : (sbCtx inpC4W stC3).breathing = 1 := by
    show (if (inpC4W.modeSingularity = false ∨ inpC4W.blackHolePull < 0.3)
      then 1.0 + Real.sin (inpC4W.tNow * 1.2) * 0.025 else 1.0) = 1
    have hmode : inpC4W.modeSingularity = false := rfl
    rw [if_pos (Or.inl hmode)]
    norm_num [inpC4W, Real.sin_zero]
  have hoi : ∀ i, (sbCtx inpC4W stC3).origPos i = Vec3.zero := fun _ => rfl
  have hp0 : (initLoopSt stC3).pos 0 = Vec3.zero := rfl
  have hv0 : (initLoopSt stC3).vel 0 = Vec3.zero := rfl
  have ha0 : (initLoopSt stC3).absorb 0 = 0 := rfl
  have hout0p : (vertexOutcome (sbCtx inpC4W stC3) (initLoopSt stC3) 0).p
      = (⟨0, 0, 0⟩ : Vec3) := by
    simp [vertexOutcome, vertexIntegrate, hbhF, hhl, hn, hbr, hoi, hdt,
      hp0, hv0, ha0, CFG.spring]
  have hP1 : (sbLoop (sbCtx inpC4W stC3) 1 (initLoopSt stC3)).pos 1
      = (⟨3, 0, 0⟩ : Vec3) := by
    rw [sbLoop_pos_frozen (sbCtx inpC4W stC3) 1 (initLoopSt stC3) 1 le_rfl]
    rfl
  have hV1 : (sbLoop (sbCtx inpC4W stC3) 1 (initLoopSt stC3)).vel 1
      = Vec3.zero := by
    rw [sbLoop_vel_frozen (sbCtx inpC4W stC3) 1 (initLoopSt stC3) 1 le_rfl]
    rfl
  have hA1 : (sbLoop (sbCtx inpC4W stC3) 1 (initLoopSt stC3)).absorb 1 = 0 := by
    rw [sbLoop_absorb_frozen (sbCtx inpC4W stC3) 1 (initLoopSt stC3) 1 le_rfl]
    rfl
  have hout1p : (vertexOutcome (sbCtx inpC4W stC3)
      (sbLoop (sbCtx inpC4W stC3) 1 (initLoopSt stC3)) 1).p
      = (⟨2.911296, 0, 0⟩ : Vec3) := by
    simp [vertexOutcome, vertexIntegrate, hbhF, hhl, hn, hbr, hoi, hdt,
      hP1, hV1, hA1, CFG.spring]
    norm_num
  have e1 : sbLoop (sbCtx inpC4W stC3) 1 (initLoopSt stC3)
      = vertexStep (sbCtx inpC4W stC3) (initLoopSt stC3) 0 :=
    sbLoop_succ (sbCtx inpC4W stC3) 0 (initLoopSt stC3)
  have e2 : sbLoop (sbCtx inpC4W stC3) 2 (initLoopSt stC3)
      = vertexStep (sbCtx inpC4W stC3)
          (sbLoop (sbCtx inpC4W stC3) 1 (initLoopSt stC3)) 1 :=
    sbLoop_succ (sbCtx inpC4W stC3) 1 (initLoopSt stC3)
  have hF1 : (sbLoop (sbCtx inpC4W stC3) 2 (initLoopSt stC3)).pos 1
      = (⟨2.911296, 0, 0⟩ : Vec3) := by
    rw [e2, vertexStep_pos_self]
    exact hout1p
  have hF0 : (sbLoop (sbCtx inpC4W stC3) 2 (initLoopSt stC3)).pos 0
      = (⟨0, 0, 0⟩ : Vec3) := by
    rw [e2, vertexStep_pos_other (sbCtx inpC4W stC3) _ 1 0 (by decide),
      e1, vertexStep_pos_self]
    exact hout0p
  have hims : (initLoopSt stC3).maxStress = 0 := rfl
  have hms : (sbLoop (sbCtx inpC4W stC3) 2 (initLoopSt stC3)).maxStress
      = 2.911296 := by
    rw [sbLoop_maxStress_fold (sbCtx inpC4W stC3) hbhF 2 (initLoopSt stC3),
      show List.range 2 = [0, 1] from rfl]
    simp only [List.foldl_cons, List.foldl_nil]
    rw [hF0, hF1, hoi 0, hoi 1, dist_axis 0 le_rfl,
      dist_axis 2.911296 (by norm_num), hims]
    norm_num [max_def]
  have hemaval : (softBodyUpdate inpC4W stC3).stressEMA = 0.23290368 := by
    rw [softBodyUpdate_ema]
    show stC3.stressEMA * 0.92
      + (sbLoop (sbCtx inpC4W stC3) 2 (initLoopSt stC3)).maxStress * 0.08 = _
    rw [hms, show stC3.stressEMA = 0 from rfl]
    norm_num
  have hup0 : (softBodyUpdate inpC4W stC3).pos 0 = (⟨0, 0, 0⟩ : Vec3) := by
    rw [softBodyUpdate_pos]
    show (sbLoop (sbCtx inpC4W stC3) 2 (initLoopSt stC3)).pos 0 = _
    exact hF0
  have hup1 : (softBodyUpdate inpC4W stC3).pos 1 = (⟨2.911296, 0, 0⟩ : Vec3) := by
    rw [softBodyUpdate_pos]
    show (sbLoop (sbCtx inpC4W stC3) 2 (initLoopSt stC3)).pos 1 = _
    exact hF1
  have hog : ∀ i, stC3.origPos i = Vec3.zero := fun _ => rfl
  have hmeanval : specMeanStress inpC4W stC3 = 1.455648 := by
    unfold specMeanStress
    show ((List.range 2).foldl
      (fun s i => s + Vec3.dist ((softBodyUpdate inpC4W stC3).pos i)
        (stC3.origPos i)) 0) / ((2 : ℕ) : ℝ) = 1.455648
    rw [show List.range 2 = [0, 1] from rfl]
    simp only [List.foldl_cons, List.foldl_nil]
    rw [hup0, hup1, hog 0, hog 1, dist_axis 0 le_rfl,
      dist_axis 2.911296 (by norm_num)]
    norm_num
  intro h
  rw [hemaval, hmeanval, show stC3.stressEMA = 0 from rfl] at h
  norm_num at h

lemma handsStep_gp_other (inp : SBInput) (st : SBState) (tr : ℝ)
    (acc : (ℕ → Option GrabPt) × (ℕ → Bool) × List HandLocal)
    (e : ℕ × Option Hand) (id : ℕ) (hid : e.1 ≠ id) :
    (handsStep inp st tr acc e).1 id = acc.1 id := by
  rcases e with ⟨k, eh⟩
  have hk : k ≠ id := hid
  cases eh with
  | none => rfl
  | some h =>
    cases hp : h.pos with
    | none => simp only [handsStep, hp]
    | some q =>
      simp only [handsStep, hp]
      split_ifs with hpinch hprev
      · cases hfc : findClosestVertex inp st q with
        | none => rfl
        | some cbest =>
          dsimp only
          split_ifs with hlt
          · exact Function.update_noteq hk.symm _ _
          · rfl
      · rfl
      · exact Function.update_noteq hk.symm _ _

lemma handsStep_gp_false (inp : SBInput) (st : SBState) (tr : ℝ)
    (acc : (ℕ → Option GrabPt) × (ℕ → Bool) × List HandLocal)
    (k : ℕ) (h : Hand) (q : Vec3)
    (hp : h.pos = some q) (hpinch : h.pinch = false) :
    (handsStep inp st tr acc (k, some h)).1 k = none := by
  simp only [handsStep, hp, hpinch, Bool.false_eq_true, if_false]
  exact Function.update_same _ _ _

lemma handsFold_gp_not_mem (inp : SBInput) (st : SBState) (tr : ℝ) :
    ∀ (t : List (ℕ × Option Hand))
      (acc : (ℕ → Option GrabPt) × (ℕ → Bool) × List HandLocal) (id : ℕ),
      id ∉ t.map Prod.fst →
      (t.foldl (handsStep inp st tr) acc).1 id = acc.1 id := by
  intro t
  induction t with
  | nil => intro acc id _; rfl
  | cons e t ih =>
    intro acc id hmem
    simp only [List.map_cons, List.mem_cons, not_or] at hmem
    rw [List.foldl_cons, ih _ id hmem.2]
    exact handsStep_gp_other inp st tr acc e id (fun he => hmem.1 he.symm)

/-- A pinch-released entry that carries a position deletes its grab anchor,
and no later entry recreates it when the hand ids are distinct. -/
lemma handsPass_gp_false (inp : SBInput) (st : SBState) (tr : ℝ)
    (entries : List (ℕ × Option Hand)) (hh : inp.hands = some entries)
    (hnd : (entries.map Prod.fst).Nodup)
    (k : ℕ) (h : Hand) (q : Vec3)
    (hmem : (k, some h) ∈ entries) (hp : h.pos = some q)
    (hpinch : h.pinch = false) :
    (handsPass inp st tr).1 k = none := by
  obtain ⟨s, t, he⟩ := List.append_of_mem hmem
  have hfold : handsPass inp st tr
      = entries.foldl (handsStep inp st tr) (st.grabPoints, st.prevPinch, []) := by
    unfold handsPass
    rw [hh]
  rw [hfold, he, List.foldl_append, List.foldl_cons]
  have hknott : k ∉ t.map Prod.fst := by
    have h1 : (s.map Prod.fst ++ k :: t.map Prod.fst).Nodup := by
      rw [he] at hnd
      simpa [List.map_append] using hnd
    exact (List.nodup_cons.mp h1.of_append_right).1
  rw [handsFold_gp_not_mem inp st tr t _ k hknott]
  exact handsStep_gp_false inp st tr _ k h q hp hpinch

/-- C8 (amended): after an update with the input map present and its hand
ids distinct, (i) every id whose entry carries a position and reports
pinch=false has no grab anchor (entries that are null or lack a position
are skipped by the loop and their stale anchors survive the cleanup, since
it only tests key membership); and (ii) every surviving anchor's id is a
key of the input map. At most one anchor per id holds structurally: the
anchors live in a map keyed by hand id. -/
theorem C8_grab_anchor_cleanup_and_presence (inp : SBInput) (st : SBState)
    (entries : List (ℕ × Option Hand)) (hh : inp.hands = some entries)
    (hnd : (entries.map Prod.fst).Nodup) :
    (∀ k h q, (k, some h) ∈ entries → h.pos = some q → h.pinch = false →
      (softBodyUpdate inp st).grabPoints k = none) ∧
    (∀ k, (softBodyUpdate inp st).grabPoints k ≠ none →
      k ∈ entries.map Prod.fst) := by
  constructor
  · intro k h q hmem hp hpinch
    rw [softBodyUpdate_grabPoints]
    have hcg : cleanupGrabs inp.hands
        (handsPass inp st (CFG.radius * sbScale inp.scaleX * 2.5)).1 k
        = if k ∈ entries.map Prod.fst
          then (handsPass inp st (CFG.radius * sbScale inp.scaleX * 2.5)).1 k
          else none := by
      unfold cleanupGrabs
      rw [hh]
    rw [hcg]
    split_ifs with hk
    · exact handsPass_gp_false inp st _ entries hh hnd k h q hmem hp hpinch
    · rfl
  · intro k hne
    rw [softBodyUpdate_grabPoints] at hne
    by_contra hk
    apply hne
    unfold cleanupGrabs
    rw [hh]
    exact if_neg hk

/-- One released hand with a live position. -/
def entriesC8W : List (ℕ × Option Hand) := [(0, some ⟨some ⟨5, 5, 5⟩, false⟩)]

/-- The softbody input carrying that hand map. -/
def inpC8W : SBInput :=
  { hands := some entriesC8W, singPresent := false, singEnabled := false,
    singPos := Vec3.zero, deltaTime := 0.016, neurons := none, tNow := 0,
    modeSingularity := false, blackHolePull := 0, scaleX := 1,
    worldToLocal := id, localToWorld := id }

/-- A one-vertex state with an anchor held by hand 0. -/
def stC8 : SBState :=
  { stC9 with grabPoints := fun _ => some ⟨0, ⟨1, 1, 1⟩⟩ }

theorem C8_grab_anchor_cleanup_and_presence_witness :
    (softBodyUpdate inpC8W stC8).grabPoints 0 = none :=
  (C8_grab_anchor_cleanup_and_presence inpC8W stC8 entriesC8W rfl (by decide)).1
    0 ⟨some ⟨5, 5, 5⟩, false⟩ ⟨5, 5, 5⟩ (by simp [entriesC8W]) rfl rfl

/-- A hand entry that is present and not pinching but lacks a position. -/
def inpC8 : SBInput :=
  { hands := some [(1, some ⟨none, false⟩)], singPresent := false,
    singEnabled := false, singPos := Vec3.zero, deltaTime := 0.016,
    neurons := none, tNow := 0, modeSingularity := false, blackHolePull := 0,
    scaleX := 1, worldToLocal := id, localToWorld := id }

/-- A state in which hand 1 holds an anchor. -/
def stC8b : SBState :=
  { stC9 with grabPoints := fun i => if i = 1 then some ⟨0, ⟨1, 1, 1⟩⟩ else none }

/-- C8 counterexample: hand id 1 is present in the input map with
pinch=false, yet its grab anchor survives the update — the loop skips
entries without a position (`if (!h || !h.pos) continue`) and the cleanup
only tests key membership, so the stale anchor is kept. -/
theorem C8_stale_anchor_counterexample :
    ¬ ((softBodyUpdate inpC8 stC8b).grabPoints 1 = none) := by
  have hval : (softBodyUpdate inpC8 stC8b).grabPoints 1
      = some ⟨0, ⟨1, 1, 1⟩⟩ := by
    rw [softBodyUpdate_grabPoints]
    rfl
  intro h
  rw [hval] at h
  exact Option.noConfusion h

/-! ### IEEE-style scalar values for the NaN-scan claim -/

/-- A JavaScript number as far as the safety scan distinguishes them:
an ordinary (finite) value, NaN, or a signed infinity. -/
inductive JSVal where
  | num : ℝ → JSVal
  | nan : JSVal
  | pinf : JSVal
  | ninf : JSVal

/-- IEEE negation. -/
def jneg : JSVal → JSVal
  | .num a => .num (-a)
  | .nan => .nan
  | .pinf => .ninf
  | .ninf => .pinf

/-- IEEE addition: NaN propagates, opposite infinities give NaN. -/
def jadd : JSVal → JSVal → JSVal
  | .num a, .num b => .num (a + b)
  | .nan, _ => .nan
  | _, .nan => .nan
  | .pinf, .ninf => .nan
  | .ninf, .pinf => .nan
  | .pinf, _ => .pinf
  | _, .pinf => .pinf
  | .ninf, _ => .ninf
  | _, .ninf => .ninf

/-- IEEE subtraction as addition of the negation. -/
def jsub (a b : JSVal) : JSVal := jadd a (jneg b)

/-- IEEE multiplication: NaN propagates, infinity times zero is NaN,
otherwise infinities keep the product's sign. -/
def jmul : JSVal → JSVal → JSVal
  | .num a, .num b => .num (a * b)
  | .nan, _ => .nan
  | _, .nan => .nan
  | .pinf, .pinf => .pinf
  | .pinf, .ninf => .ninf
  | .ninf, .pinf => .ninf
  | .ninf, .ninf => .pinf
  | .pinf, .num b => if 0 < b then .pinf else if b < 0 then .ninf else .nan
  | .num a, .pinf => if 0 < a then .pinf else if a < 0 then .ninf else .nan
  | .ninf, .num b => if 0 < b then .ninf else if b < 0 then .pinf else .nan
  | .num a, .ninf => if 0 < a then .ninf else if a < 0 then .pinf else .nan

/-- JavaScript's `isNaN` on these values: true exactly on NaN — an
infinity passes the test. -/
def jvIsNaN : JSVal → Bool
  | .nan => true
  | _ => false

/-- A vertex-buffer triple of IEEE-style scalars. -/
structure JVec3 where
  x : JSVal
  y : JSVal
  z : JSVal

/-- Embed a finite rest position. -/
def jnum3 (v : Vec3) : JVec3 := ⟨.num v.x, .num v.y, .num v.z⟩

/-- The buffers of `SoftBody.update` that the claim speaks about, with the
position and velocity buffers carrying IEEE-style scalars. -/
structure JSBState where
  count : ℕ
  origPos : ℕ → Vec3
  pos : ℕ → JVec3
  vel : ℕ → JVec3
  absorb : ℕ → ℝ

/-- `SoftBody.update` (lines 127–704) specialized to `hands = null`,
`neurons = null` and the attractor disabled (so `springFactor = 1` and the
black-hole block is skipped), over IEEE-style scalars: the entry NaN scan
of lines 141–152 (`isNaN` on the three position components of each
vertex), the spring force toward the breathing rest target, the fixed 0.88
damping and `dt·60` integration of lines 286–638, and the emergency reset
of lines 670–683 that overwrites position, velocity and absorption when
the scan fired. -/
def jsSoftBodyUpdate (breathing dt : ℝ) (st : JSBState) : JSBState :=
  let hasNaN := (List.range st.count).any fun i =>
    jvIsNaN (st.pos i).x || jvIsNaN (st.pos i).y || jvIsNaN (st.pos i).z
  let step : ℕ → JVec3 × JVec3 := fun i =>
    let p := st.pos i
    let shrinkFactor := max 0 (1.0 - st.absorb i)
    let ox := (st.origPos i).x * breathing * shrinkFactor
    let oy := (st.origPos i).y * breathing * shrinkFactor
    let oz := (st.origPos i).z * breathing * shrinkFactor
    let v1 : JVec3 :=
      ⟨jadd (st.vel i).x (jmul (jsub (.num ox) p.x) (.num CFG.spring)),
        jadd (st.vel i).y (jmul (jsub (.num oy) p.y) (.num CFG.spring)),
        jadd (st.vel i).z (jmul (jsub (.num oz) p.z) (.num CFG.spring))⟩
    let v11 : JVec3 :=
      ⟨jmul v1.x (.num 0.88), jmul v1.y (.num 0.88), jmul v1.z (.num 0.88)⟩
    let pf : JVec3 :=
      ⟨jadd p.x (jmul (jmul v11.x (.num dt)) (.num 60)),
        jadd p.y (jmul (jmul v11.y (.num dt)) (.num 60)),
        jadd p.z (jmul (jmul v11.z (.num dt)) (.num 60))⟩
    (pf, v11)
  { st with
    pos := fun i => if i < st.count then
        (if hasNaN = true then jnum3 (st.origPos i) else (step i).1)
      else st.pos i
    vel := fun i => if i < st.count then
        (if hasNaN = true then ⟨.num 0, .num 0, .num 0⟩ else (step i).2)
      else st.vel i
    absorb := fun i => if i < st.count then
        (if hasNaN = true then 0 else st.absorb i)
      else st.absorb i }

/-- C2 (amended): when some vertex position component is **NaN** on entry
(the scan uses `isNaN`, so an infinity is not detected), the tick's results
for the scanned buffers are discarded: after the call every vertex's
position equals its rest position, its velocity is zero, and its
absorption is zero. -/
theorem C2_nan_entry_triggers_emergency_reset (breathing dt : ℝ)
    (st : JSBState) (j : ℕ) (hj : j < st.count)
    (hnan : jvIsNaN (st.pos j).x = true ∨ jvIsNaN (st.pos j).y = true ∨
      jvIsNaN (st.pos j).z = true) :
    ∀ i, i < st.count →
      (jsSoftBodyUpdate breathing dt st).pos i = jnum3 (st.origPos i) ∧
      (jsSoftBodyUpdate breathing dt st).vel i = ⟨.num 0, .num 0, .num 0⟩ ∧
      (jsSoftBodyUpdate breathing dt st).absorb i = 0 := by
  intro i hi
  have hN : ((List.range st.count).any fun i =>
      jvIsNaN (st.pos i).x || jvIsNaN (st.pos i).y || jvIsNaN (st.pos i).z)
      = true := by
    rw [List.any_eq_true]
    refine ⟨j, List.mem_range.mpr hj, ?_⟩
    rcases hnan with h | h | h <;> simp [h]
  refine ⟨?_, ?_, ?_⟩
  · show (if i < st.count then
        (if ((List.range st.count).any fun i =>
            jvIsNaN (st.pos i).x || jvIsNaN (st.pos i).y || jvIsNaN (st.pos i).z)
            = true
          then jnum3 (st.origPos i) else _)
      else st.pos i) = jnum3 (st.origPos i)
    rw [if_pos hi, if_pos hN]
  · show (if i < st.count then
        (if ((List.range st.count).any fun i =>
            jvIsNaN (st.pos i).x || jvIsNaN (st.pos i).y || jvIsNaN (st.pos i).z)
            = true
          then (⟨.num 0, .num 0, .num 0⟩ : JVec3) else _)
      else st.vel i) = (⟨.num 0, .num 0, .num 0⟩ : JVec3)
    rw [if_pos hi, if_pos hN]
  · show (if i < st.count then
        (if ((List.range st.count).any fun i =>
            jvIsNaN (st.pos i).x || jvIsNaN (st.pos i).y || jvIsNaN (st.pos i).z)
            = true
          then (0:ℝ) else _)
      else st.absorb i) = 0
    rw [if_pos hi, if_pos hN]

/-- One vertex whose x position is NaN on entry. -/
def stC2W : JSBState :=
  { count := 1, origPos := fun _ => ⟨1, 2, 3⟩,
    pos := fun _ => ⟨.nan, .num 0, .num 0⟩,
    vel := fun _ => ⟨.num 0, .num 0, .num 0⟩,
    absorb := fun _ => 0 }

theorem C2_nan_entry_triggers_emergency_reset_witness :
    (jsSoftBodyUpdate 1 0.016 stC2W).pos 0 = jnum3 (stC2W.origPos 0) ∧
    (jsSoftBodyUpdate 1 0.016 stC2W).vel 0 = ⟨.num 0, .num 0, .num 0⟩ ∧
    (jsSoftBodyUpdate 1 0.016 stC2W).absorb 0 = 0 :=
  C2_nan_entry_triggers_emergency_reset 1 0.016 stC2W 0
    (by norm_num [stC2W]) (Or.inl rfl) 0 (by norm_num [stC2W])

/-- One vertex whose x position is +Infinity on entry. -/
def stC2 : JSBState :=
  { count := 1, origPos := fun _ => ⟨1, 2, 3⟩,
    pos := fun _ => ⟨.pinf, .num 0, .num 0⟩,
    vel := fun _ => ⟨.num 0, .num 0, .num 0⟩,
    absorb := fun _ => 0 }

/-- C2 counterexample: an Infinity entry passes the `isNaN` scan, the tick
runs, and the vertex ends at x = Infinity + (−Infinity·dt·60) = NaN instead
of being reset to its rest position. -/
theorem C2_infinity_not_detected_counterexample :
    ¬ ((jsSoftBodyUpdate 1 0.016 stC2).pos 0 = jnum3 (stC2.origPos 0)) := by
  have hx : ((jsSoftBodyUpdate 1 0.016 stC2).pos 0).x = JSVal.nan := by
    norm_num [jsSoftBodyUpdate, stC2, jvIsNaN, jadd, jsub, jneg, jmul,
      CFG.spring, max_def]
  intro h
  rw [h] at hx
  exact JSVal.noConfusion hx
